import Mathlib

/-!
Verification of the expression-compilation core of the HDK/OmniSci query engine
against its natural-language specification.

The development shallowly embeds the relevant source functions:

* `IR/TypeUtils.cpp` : `logicalType`, `logicalSize`
* `QueryEngine/ScalarExprVisitor.h` (second part, CodeGenerator translation unit) :
  `contains_unsafe_division`, `should_defer_eval`, `get_likelihood`, `get_weight`,
  `CodeGenerator::prioritizeQuals`
* `QueryEngine/ScalarExprVisitor.h` (DateTimeUtils part) : `get_timestamp_precision_scale`,
  `get_datetime_scaled_epoch`
* `QueryEngine/OutputBufferInitialization.cpp` : `get_agg_initial_val`, both
  `init_agg_val_vec` overloads, `agg_arg`, `constrained_not_null`
* `TargetInfo.h` : `TargetInfo`, `get_target_info`, `takes_float_argument`

Machine integers are modelled as `Int` with explicit wrap-around where overflow
matters; IEEE floating-point payloads of literals are modelled by exact rationals
(no claim below depends on rounding); fallible code (CHECK / abort / throw) is
modelled by `Option` or `Except`.  Helper classes whose sources are not shown
(`NullableValue`, the `Type` class internals, `QueryMemoryDescriptor`,
`set_notnull`, `get_compact_type`, bit-width helpers) are modelled from the
specification; each such definition carries a doc comment saying so.
-/

set_option maxHeartbeats 1000000

namespace HdkSpec

/-- Time units of temporal types, mirroring `hdk::ir::TimeUnit`. -/
inductive TimeUnit where
  | kMonth
  | kDay
  | kSecond
  | kMilli
  | kMicro
  | kNano
  deriving DecidableEq, Repr

/-- Modelled from the spec: the interned `hdk::ir::Type` values (IR/Type.h is not
among the shown sources).  A type is a logical kind together with its byte width,
nullability flag, time unit for temporal kinds and dictionary id for
dictionary-encoded text, exactly the attributes the data-model section of the
specification lists.  The sixteen kinds are the ones enumerated by the `switch`
in `logicalSize` (IR/TypeUtils.cpp). -/
inductive IRType where
  | nullTy
  | boolean (nullable : Bool)
  | integer (size : Int) (nullable : Bool)
  | fp (size : Int) (nullable : Bool)
  | decimal (size : Int) (precision : Nat) (scale : Nat) (nullable : Bool)
  | varchar (maxLength : Nat) (nullable : Bool)
  | text (nullable : Bool)
  | date (size : Int) (unit : TimeUnit) (nullable : Bool)
  | time (size : Int) (unit : TimeUnit) (nullable : Bool)
  | timestamp (unit : TimeUnit) (nullable : Bool)
  | interval (size : Int) (unit : TimeUnit) (nullable : Bool)
  | fixedLenArray (elemType : IRType) (numElems : Nat) (nullable : Bool)
  | varLenArray (elemType : IRType) (offsetSize : Int) (nullable : Bool)
  | extDict (elemType : IRType) (dictId : Int) (size : Int)
  | column (colType : IRType) (nullable : Bool)
  | columnList (colType : IRType) (length : Nat) (nullable : Bool)
  deriving DecidableEq, Repr

namespace IRType

/-- Modelled from the spec: declared byte width of a type (`Type::size()`).
Variable-length kinds (text, varchar, variable-length arrays) report -1;
a fixed-length array reports the combined width of its elements. -/
def size : IRType → Int
  | .nullTy => 0
  | .boolean _ => 1
  | .integer s _ => s
  | .fp s _ => s
  | .decimal s _ _ _ => s
  | .varchar _ _ => -1
  | .text _ => -1
  | .date s _ _ => s
  | .time s _ _ => s
  | .timestamp _ _ => 8
  | .interval s _ _ => s
  | .fixedLenArray e n _ => e.size * n
  | .varLenArray _ _ _ => -1
  | .extDict _ _ s => s
  | .column t _ => t.size
  | .columnList t n _ => t.size * n

/-- Nullability flag of a type (`Type::nullable()`); a dictionary-encoded text
type takes the nullability of its element type. -/
def nullable : IRType → Bool
  | .nullTy => true
  | .boolean n => n
  | .integer _ n => n
  | .fp _ n => n
  | .decimal _ _ _ n => n
  | .varchar _ n => n
  | .text n => n
  | .date _ _ n => n
  | .time _ _ n => n
  | .timestamp _ n => n
  | .interval _ _ n => n
  | .fixedLenArray _ _ n => n
  | .varLenArray _ _ n => n
  | .extDict e _ _ => e.nullable
  | .column _ n => n
  | .columnList _ _ n => n

/-- Modelled from the spec: `Type::withNullable`, the same type with the
nullability flag replaced. -/
def withNullable : IRType → Bool → IRType
  | .nullTy, _ => .nullTy
  | .boolean _, n => .boolean n
  | .integer s _, n => .integer s n
  | .fp s _, n => .fp s n
  | .decimal s p sc _, n => .decimal s p sc n
  | .varchar m _, n => .varchar m n
  | .text _, n => .text n
  | .date s u _, n => .date s u n
  | .time s u _, n => .time s u n
  | .timestamp u _, n => .timestamp u n
  | .interval s u _, n => .interval s u n
  | .fixedLenArray e k _, n => .fixedLenArray e k n
  | .varLenArray e o _, n => .varLenArray e o n
  | .extDict e d s, n => .extDict (e.withNullable n) d s
  | .column t _, n => .column t n
  | .columnList t l _, n => .columnList t l n

/-- Kind test `Type::isExtDictionary()`. -/
def isExtDictionary : IRType → Bool
  | .extDict _ _ _ => true
  | _ => false

/-- Kind test `Type::isDate()`. -/
def isDate : IRType → Bool
  | .date _ _ _ => true
  | _ => false

/-- Kind test `Type::isTime()`. -/
def isTime : IRType → Bool
  | .time _ _ _ => true
  | _ => false

/-- Kind test `Type::isInterval()`. -/
def isInterval : IRType → Bool
  | .interval _ _ _ => true
  | _ => false

/-- Kind test `Type::isFixedLenArray()`. -/
def isFixedLenArray : IRType → Bool
  | .fixedLenArray _ _ _ => true
  | _ => false

/-- Kind test `Type::isArray()` (fixed- or variable-length). -/
def isArray : IRType → Bool
  | .fixedLenArray _ _ _ => true
  | .varLenArray _ _ _ => true
  | _ => false

/-- Kind test `Type::isString()` (varchar or text). -/
def isString : IRType → Bool
  | .varchar _ _ => true
  | .text _ => true
  | _ => false

/-- Kind test `Type::isBoolean()`. -/
def isBoolean : IRType → Bool
  | .boolean _ => true
  | _ => false

/-- Kind test `Type::isInteger()`. -/
def isInteger : IRType → Bool
  | .integer _ _ => true
  | _ => false

/-- Kind test `Type::isFloatingPoint()`. -/
def isFloatingPoint : IRType → Bool
  | .fp _ _ => true
  | _ => false

/-- Kind test `Type::isDecimal()`. -/
def isDecimal : IRType → Bool
  | .decimal _ _ _ _ => true
  | _ => false

/-- Width-qualified integer test `Type::isInt8()`. -/
def isInt8 (t : IRType) : Bool := t.isInteger && t.size == 1

/-- Width-qualified integer test `Type::isInt16()`. -/
def isInt16 (t : IRType) : Bool := t.isInteger && t.size == 2

/-- Width-qualified integer test `Type::isInt32()`. -/
def isInt32 (t : IRType) : Bool := t.isInteger && t.size == 4

/-- Width-qualified integer test `Type::isInt64()`. -/
def isInt64 (t : IRType) : Bool := t.isInteger && t.size == 8

/-- Width-qualified floating-point test `Type::isFp32()`. -/
def isFp32 (t : IRType) : Bool := t.isFloatingPoint && t.size == 4

/-- Width-qualified floating-point test `Type::isFp64()`. -/
def isFp64 (t : IRType) : Bool := t.isFloatingPoint && t.size == 8

end IRType

/-- Embedding of `logicalType` from IR/TypeUtils.cpp: dictionary-encoded text
narrows to a 4-byte key type; date narrows to 8-byte second-unit form unless it
already is one; time and interval narrow to 8 bytes keeping their unit;
a fixed-length array becomes a variable-length array with a 4-byte length
header; every other type is returned unchanged. -/
def logicalType (type : IRType) : IRType :=
  match type with
  | .extDict elemType dictId sz =>
      if sz ≠ 4 then .extDict elemType dictId 4 else type
  | .date sz unit n =>
      if unit ≠ .kSecond || sz ≠ 8 then .date 8 .kSecond n else type
  | .time sz unit n =>
      if sz ≠ 8 then .time 8 unit n else type
  | .interval sz unit n =>
      if sz ≠ 8 then .interval 8 unit n else type
  | .fixedLenArray elemType _ n => .varLenArray elemType 4 n
  | _ => type

/-- Embedding of `logicalSize` from IR/TypeUtils.cpp.  The switch covers all
sixteen kinds of the type-id enumeration, so the aborting default branch is
unreachable and the function is total on well-formed types. -/
def logicalSize (type : IRType) : Int :=
  match type with
  | .nullTy => type.size
  | .boolean _ => type.size
  | .integer _ _ => type.size
  | .decimal _ _ _ _ => type.size
  | .fp _ _ => type.size
  | .fixedLenArray _ _ _ => type.size
  | .column _ _ => type.size
  | .columnList _ _ _ => type.size
  | .varLenArray _ _ _ => type.size
  | .varchar _ _ => type.size
  | .text _ => type.size
  | .extDict _ _ _ => 4
  | .timestamp _ _ => 8
  | .time _ _ _ => 8
  | .date _ _ _ => 8
  | .interval _ _ _ => 8

/-- Spec-side description of `logicalSize` for the amended claim C6, written
from the words of the specification: dictionary text reports 4, the four
temporal kinds report 8, and every other defined kind reports the declared
size of the type itself. -/
def logicalSizeDescribed (type : IRType) : Int :=
  if type.isExtDictionary then 4
  else match type with
  | .timestamp _ _ => 8
  | .time _ _ _ => 8
  | .date _ _ _ => 8
  | .interval _ _ _ => 8
  | _ => type.size

/-- Claim C7: `logicalType` is an idempotent canonicalization — applying it
twice gives the same result as applying it once, for every type. -/
theorem claim_C7_logicalType_idempotent (t : IRType) :
    logicalType (logicalType t) = logicalType t := by
  cases t <;> simp only [logicalType] <;> try rfl
  case extDict e d s =>
    by_cases h : s = 4 <;> simp [h]
  case date s u n =>
    by_cases hu : u = TimeUnit.kSecond <;> by_cases hs : s = 8 <;> simp [hu, hs]
  case time s u n =>
    by_cases hs : s = 8 <;> simp [hs]
  case interval s u n =>
    by_cases hs : s = 8 <;> simp [hs]

/-- Claim C6, counterexample: a defined type kind for which `logicalSize` does
not land in the set 1, 2, 4, 8.  A fixed-length array of three 4-byte integers
is a defined, constructible type; its declared size is 12 and `logicalSize`
returns that declared size. -/
theorem claim_C6_counterexample :
    logicalSize (.fixedLenArray (.integer 4 false) 3 false) = 12 ∧
      ¬ ((12 : Int) = 1 ∨ (12 : Int) = 2 ∨ (12 : Int) = 4 ∨ (12 : Int) = 8) := by
  constructor
  · rfl
  · decide

/-- Claim C6, amended: for every defined type kind `logicalSize` returns
dictionary-encoded text as 4 and timestamp, time, date and interval as 8, and
every other defined kind as the declared size of the type; the result lies in
the set 1, 2, 4, 8 whenever that declared size does (in particular for all
fixed-width scalar kinds), but not for composite kinds such as fixed-length
arrays.  The aborting default branch of the switch is unreachable because the
sixteen defined kinds exhaust the type-id enumeration. -/
theorem claim_C6_amended (t : IRType) :
    logicalSize t = logicalSizeDescribed t ∧
      (t.size = 1 ∨ t.size = 2 ∨ t.size = 4 ∨ t.size = 8 →
        logicalSize t = 1 ∨ logicalSize t = 2 ∨ logicalSize t = 4 ∨
          logicalSize t = 8) := by
  cases t <;> simp [logicalSize, logicalSizeDescribed, IRType.isExtDictionary,
    IRType.size]

/-- Witness for the amended claim C6 at a concrete input: a non-nullable 4-byte
integer type has logical size 4, inside the set. -/
theorem claim_C6_amended_witness :
    logicalSize (.integer 4 false) = logicalSizeDescribed (.integer 4 false) ∧
      logicalSize (.integer 4 false) = 4 := by
  have h := claim_C6_amended (.integer 4 false)
  refine ⟨h.1, ?_⟩
  rcases h.2 (by decide) with h4 | h4 | h4 | h4 <;> first
    | exact h4
    | exact absurd h4 (by decide)

/-- Literal payload of a `hdk::ir::Constant` (the `Datum` union).  Each union
field used by the sources is one constructor; IEEE float payloads are modelled
by exact rationals, which is faithful for the zero tests the sources perform. -/
inductive Datum where
  | boolval (v : Int)
  | tinyintval (v : Int)
  | smallintval (v : Int)
  | intval (v : Int)
  | bigintval (v : Int)
  | floatval (v : ℚ)
  | doubleval (v : ℚ)
  | stringval (v : String)
  deriving DecidableEq, Repr

namespace Datum

/-- Union read of the boolean field; `none` when the stored field differs. -/
def boolField : Datum → Option Int
  | .boolval v => some v
  | _ => none

/-- Union read of the 1-byte integer field. -/
def tinyintField : Datum → Option Int
  | .tinyintval v => some v
  | _ => none

/-- Union read of the 2-byte integer field. -/
def smallintField : Datum → Option Int
  | .smallintval v => some v
  | _ => none

/-- Union read of the 4-byte integer field. -/
def intField : Datum → Option Int
  | .intval v => some v
  | _ => none

/-- Union read of the 8-byte integer field. -/
def bigintField : Datum → Option Int
  | .bigintval v => some v
  | _ => none

/-- Union read of the float field. -/
def floatField : Datum → Option ℚ
  | .floatval v => some v
  | _ => none

/-- Union read of the double field. -/
def doubleField : Datum → Option ℚ
  | .doubleval v => some v
  | _ => none

end Datum

/-- Operator kinds (`SQLOps`), restricted to the ones the shown sources
inspect. -/
inductive SQLOps where
  | kEQ
  | kLT
  | kGT
  | kAND
  | kOR
  | kNOT
  | kDIVIDE
  | kMULTIPLY
  | kPLUS
  | kMINUS
  | kISNULL
  | kISNOTNULL
  | kCAST
  | kUMINUS
  deriving DecidableEq, Repr

/-- Operand qualifier of a binary operator (`SQLQualifier`). -/
inductive SQLQualifier where
  | kONE
  | kANY
  | kALL
  deriving DecidableEq, Repr

/-- Aggregate kinds (`SQLAgg`). -/
inductive SQLAgg where
  | kAVG
  | kMIN
  | kMAX
  | kSUM
  | kCOUNT
  | kAPPROX_COUNT_DISTINCT
  | kSAMPLE
  | kSINGLE_VALUE
  | kAPPROX_QUANTILE
  deriving DecidableEq, Repr

/-- Expression tree (`hdk::ir::Expr` and its subclasses), restricted to the
variants the claims exercise.  Every node carries its resolved type.  The
shared-pointer graph of the sources is modelled by values; deep structural
equality stands in for the deep `operator==` of the analyzer nodes. -/
inductive Expr where
  | columnVar (type : IRType) (tableId : Nat) (columnId : Nat)
  | constant (type : IRType) (isNull : Bool) (value : Datum)
  | uoper (type : IRType) (optype : SQLOps) (operand : Expr)
  | binOper (type : IRType) (optype : SQLOps) (qualifier : SQLQualifier)
      (lhs : Expr) (rhs : Expr)
  | likeExpr (type : IRType) (arg : Expr) (likePat : Expr)
      (escape : Option Expr) (isSimple : Bool)
  | regexpExpr (type : IRType) (arg : Expr) (pat : Expr) (escape : Option Expr)
  | functionOper (type : IRType) (name : String) (args : List Expr)
  | likelihoodExpr (type : IRType) (arg : Expr) (likelihood : ℚ)
  | aggExpr (type : IRType) (aggType : SQLAgg) (arg : Option Expr)
      (isDistinct : Bool)

mutual
/-- Structural equality on expression trees, standing in for the deep
`operator==` of the analyzer nodes. -/
def exprBEq : Expr → Expr → Bool
  | .columnVar t1 a1 b1, .columnVar t2 a2 b2 =>
      t1 == t2 && a1 == a2 && b1 == b2
  | .constant t1 n1 v1, .constant t2 n2 v2 =>
      t1 == t2 && n1 == n2 && v1 == v2
  | .uoper t1 o1 e1, .uoper t2 o2 e2 =>
      t1 == t2 && o1 == o2 && exprBEq e1 e2
  | .binOper t1 o1 q1 l1 r1, .binOper t2 o2 q2 l2 r2 =>
      t1 == t2 && o1 == o2 && q1 == q2 && exprBEq l1 l2 && exprBEq r1 r2
  | .likeExpr t1 a1 p1 e1 s1, .likeExpr t2 a2 p2 e2 s2 =>
      t1 == t2 && exprBEq a1 a2 && exprBEq p1 p2 && exprBEqOpt e1 e2 &&
        s1 == s2
  | .regexpExpr t1 a1 p1 e1, .regexpExpr t2 a2 p2 e2 =>
      t1 == t2 && exprBEq a1 a2 && exprBEq p1 p2 && exprBEqOpt e1 e2
  | .functionOper t1 n1 as1, .functionOper t2 n2 as2 =>
      t1 == t2 && n1 == n2 && exprBEqList as1 as2
  | .likelihoodExpr t1 a1 l1, .likelihoodExpr t2 a2 l2 =>
      t1 == t2 && exprBEq a1 a2 && l1 == l2
  | .aggExpr t1 g1 a1 d1, .aggExpr t2 g2 a2 d2 =>
      t1 == t2 && g1 == g2 && exprBEqOpt a1 a2 && d1 == d2
  | _, _ => false

/-- Structural equality on an optional child. -/
def exprBEqOpt : Option Expr → Option Expr → Bool
  | none, none => true
  | some a, some b => exprBEq a b
  | _, _ => false

/-- Structural equality on a child list. -/
def exprBEqList : List Expr → List Expr → Bool
  | [], [] => true
  | a :: as, b :: bs => exprBEq a b && exprBEqList as bs
  | _, _ => false
end

instance : BEq Expr := ⟨exprBEq⟩

namespace Expr

/-- Resolved type of an expression node (`Expr::type()`). -/
def type : Expr → IRType
  | .columnVar t _ _ => t
  | .constant t _ _ => t
  | .uoper t _ _ => t
  | .binOper t _ _ _ _ => t
  | .likeExpr t _ _ _ _ => t
  | .regexpExpr t _ _ _ => t
  | .functionOper t _ _ => t
  | .likelihoodExpr t _ _ => t
  | .aggExpr t _ _ _ => t

end Expr

mutual
/-- Modelled from the spec: `ExprByPredicateVisitor::collect` (source not
shown), the visitor-framework traversal that gathers every node of the tree
satisfying a predicate.  Children are visited in the left-to-right order the
default `ScalarExprVisitor` methods use. -/
def collectByPred (p : Expr → Bool) (e : Expr) : List Expr :=
  (if p e then [e] else []) ++
  (match e with
   | .columnVar _ _ _ => []
   | .constant _ _ _ => []
   | .uoper _ _ operand => collectByPred p operand
   | .binOper _ _ _ lhs rhs => collectByPred p lhs ++ collectByPred p rhs
   | .likeExpr _ arg pat esc _ =>
       collectByPred p arg ++ collectByPred p pat ++ collectByPredOpt p esc
   | .regexpExpr _ arg pat esc =>
       collectByPred p arg ++ collectByPred p pat ++ collectByPredOpt p esc
   | .functionOper _ _ args => collectByPredList p args
   | .likelihoodExpr _ arg _ => collectByPred p arg
   | .aggExpr _ _ arg _ => collectByPredOpt p arg)

/-- Traversal helper of `collectByPred` for an optional child. -/
def collectByPredOpt (p : Expr → Bool) (e : Option Expr) : List Expr :=
  match e with
  | none => []
  | some x => collectByPred p x

/-- Traversal helper of `collectByPred` for a child list. -/
def collectByPredList (p : Expr → Bool) (es : List Expr) : List Expr :=
  match es with
  | [] => []
  | x :: xs => collectByPred p x ++ collectByPredList p xs
end

/-- Embedding of the `is_div` lambda inside `contains_unsafe_division`
(CodeGenerator translation unit): a binary divide whose right operand is not a
constant, is a null constant, or is a zero-valued constant of any boolean,
integer, decimal or floating-point type. -/
def is_div (e : Expr) : Bool :=
  match e with
  | .binOper _ op _ _ rhs =>
      op == .kDIVIDE &&
        (match rhs with
         | .constant ty isNull d =>
             isNull ||
               ((ty.isBoolean && d.boolField == some 0) ||
                (ty.isInt8 && d.tinyintField == some 0) ||
                (ty.isInt16 && d.smallintField == some 0) ||
                (ty.isInt32 && d.intField == some 0) ||
                (ty.isInt64 && d.bigintField == some 0) ||
                (ty.isDecimal && d.bigintField == some 0) ||
                (ty.isFp32 && d.floatField == some 0) ||
                (ty.isFp64 && d.doubleField == some 0))
         | _ => true)
  | _ => false

/-- Embedding of `contains_unsafe_division`: the collected list of matching
subexpressions is non-empty. -/
def contains_unsafe_division (e : Expr) : Bool :=
  !(collectByPred is_div e).isEmpty

/-- Embedding of `should_defer_eval`: LIKE, REGEXP and function-operator calls
are deferred; a binary operator is deferred when it contains an unsafe division
or its right operand has array type; everything else is not deferred. -/
def should_defer_eval (e : Expr) : Bool :=
  match e with
  | .likeExpr _ _ _ _ _ => true
  | .regexpExpr _ _ _ _ => true
  | .functionOper _ _ _ => true
  | .binOper _ _ _ _ rhs =>
      contains_unsafe_division e || (rhs.type).isArray
  | _ => false

/-- Modelled from the spec: `Likelihood = NullableValue<float>`
(QueryEngine/NullableValue.h is not among the shown sources).  A likelihood is
either a valid probability estimate or invalid, meaning the spec notion of
"no information"; per the spec, an operand with unknown likelihood invalidates
the estimate, so every arithmetic operation with an invalid operand is invalid,
and an ordered comparison of an invalid value against a scalar is false.
IEEE float arithmetic is modelled by exact rationals. -/
abbrev Likelihood := Option ℚ

/-- Subtraction on likelihood values; invalid if either side is. -/
def lkSub : Likelihood → Likelihood → Likelihood
  | some a, some b => some (a - b)
  | _, _ => none

/-- Multiplication on likelihood values; invalid if either side is. -/
def lkMul : Likelihood → Likelihood → Likelihood
  | some a, some b => some (a * b)
  | _, _ => none

/-- Addition on likelihood values; invalid if either side is. -/
def lkAdd : Likelihood → Likelihood → Likelihood
  | some a, some b => some (a + b)
  | _, _ => none

/-- Division of a likelihood value by a scalar; invalid stays invalid. -/
def lkDivScalar (a : Likelihood) (c : ℚ) : Likelihood :=
  a.map (fun v => v / c)

/-- Ordered comparison of a likelihood value against a scalar; false when
invalid. -/
def lkLt (a : Likelihood) (c : ℚ) : Bool :=
  match a with
  | some v => v < c
  | none => false

/-- Embedding of `get_likelihood` (CodeGenerator translation unit): an explicit
likelihood hint is returned directly; a unary NOT complements the operand
estimate (an unknown operand estimate is propagated); logical AND multiplies,
logical OR combines complements, other binary operators average; every other
expression yields the invalid estimate. -/
def get_likelihood : Expr → Likelihood
  | .likelihoodExpr _ _ l => some l
  | .uoper _ op operand =>
      match get_likelihood operand with
      | none => none
      | some l =>
          if op == .kNOT then lkSub (some 1) (some l) else some l
  | .binOper _ op _ lhs rhs =>
      let lhsL := get_likelihood lhs
      let rhsL := get_likelihood rhs
      if lhsL.isNone && rhsL.isNone then none
      else if op == .kOR then
        lkSub (some 1) (lkMul (lkSub (some 1) lhsL) (lkSub (some 1) rhsL))
      else if op == .kAND then lkMul lhsL rhsL
      else lkDivScalar (lkAdd lhsL rhsL) 2
  | _ => none

/-- Modelled from the spec: `Weight = NullableValue<unsigned>`
(QueryEngine/NullableValue.h is not among the shown sources).  A weight is
either a valid cost estimate or invalid (unscored).  Per the source comments,
heavy nodes "start valid weight propagation": adding a scalar preserves
invalidity, while adding two weights is invalid only when both are, an
unscored side contributing nothing. -/
abbrev Weight := Option Nat

/-- Scalar addition on a weight; an unscored weight stays unscored. -/
def wAddScalar (w : Weight) (c : Nat) : Weight :=
  w.map (fun v => v + c)

/-- Addition of two weights; unscored only when both sides are unscored,
otherwise an unscored side contributes zero. -/
def wAdd : Weight → Weight → Weight
  | none, none => none
  | a, b => some (a.getD 0 + b.getD 0)

/-- Ordered comparison of a weight against a scalar; false when unscored. -/
def wGt (w : Weight) (c : Nat) : Bool :=
  match w with
  | some v => c < v
  | none => false

/-- Embedding of `get_weight` (CodeGenerator translation unit): LIKE scores 200
for a simple pattern and 1000 otherwise, REGEXP scores 2000, unary and binary
operators add 1 over their operand weights, an array-typed right operand of a
binary operator receives a surcharge of 100, and any other node is unscored at
depth at most 4 and scores a flat 1 deeper than that. -/
def get_weight : Expr → Nat → Weight
  | .likeExpr _ _ _ _ isSimple, _ =>
      some (if isSimple then 200 else 1000)
  | .regexpExpr _ _ _ _, _ => some 2000
  | .uoper _ _ operand, depth =>
      wAddScalar (get_weight operand (depth + 1)) 1
  | .binOper _ _ _ lhs rhs, depth =>
      let lhsW := get_weight lhs (depth + 1)
      let rhsW0 := get_weight rhs (depth + 1)
      let rhsW := if (rhs.type).isArray then wAdd rhsW0 (some 100) else rhsW0
      wAddScalar (wAdd lhsW rhsW) 1
  | _, depth => if depth > 4 then some 1 else none

/-- Execution unit handed to `CodeGenerator::prioritizeQuals`: the simple
(indexable) qualifiers and the general qualifiers of one query. -/
structure RelAlgExecutionUnit where
  simple_quals : List Expr
  quals : List Expr

/-- Membership of an expression in the hoisted-filters set.  The source keeps a
hash set of shared pointers; distinct tree values model distinct nodes. -/
def hoistedMem (hoisted : List Expr) (e : Expr) : Bool :=
  hoisted.contains e

/-- Loop of `prioritizeQuals` over the simple qualifiers: hoisted quals are
skipped, deferrable quals go to the deferred list, the rest stay primary. -/
def prioritizeSimple (hoisted : List Expr) :
    List Expr → List Expr × List Expr
  | [] => ([], [])
  | e :: es =>
      let rest := prioritizeSimple hoisted es
      if hoistedMem hoisted e then rest
      else if should_defer_eval e then (rest.1, e :: rest.2)
      else (e :: rest.1, rest.2)

/-- Short-circuit test of the general-quals loop of `prioritizeQuals`:
estimated likelihood below 0.10 and no unsafe division contained. -/
def shortCircuitCond (e : Expr) : Bool :=
  lkLt (get_likelihood e) (1/10) && !contains_unsafe_division e

/-- Loop of `prioritizeQuals` over the general qualifiers, threading the
short-circuit flag: the first non-hoisted qual with estimated likelihood below
0.10 and no unsafe division becomes primary and raises the flag; once the flag
is set (or the qual is deferrable) the qual is deferred; otherwise it stays
primary. -/
def prioritizeGeneral (hoisted : List Expr) (sc : Bool) :
    List Expr → List Expr × List Expr × Bool
  | [] => ([], [], sc)
  | e :: es =>
      if hoistedMem hoisted e then prioritizeGeneral hoisted sc es
      else if shortCircuitCond e && !sc then
        let rest := prioritizeGeneral hoisted true es
        (e :: rest.1, rest.2.1, rest.2.2)
      else if sc || should_defer_eval e then
        let rest := prioritizeGeneral hoisted sc es
        (rest.1, e :: rest.2.1, rest.2.2)
      else
        let rest := prioritizeGeneral hoisted sc es
        (e :: rest.1, rest.2.1, rest.2.2)

/-- Embedding of `CodeGenerator::prioritizeQuals`: returns the primary list,
the deferred list, and whether a short-circuit point was chosen. -/
def prioritizeQuals (u : RelAlgExecutionUnit) (hoisted : List Expr) :
    List Expr × List Expr × Bool :=
  let s := prioritizeSimple hoisted u.simple_quals
  let g := prioritizeGeneral hoisted false u.quals
  (s.1 ++ g.1, s.2 ++ g.2.1, g.2.2)

/-- Hypothesis for the likelihood-range claim: every explicit likelihood hint
reachable by the `get_likelihood` recursion lies in the unit interval.  The
hint of a `LikelihoodExpr` is a probability supplied by the planner. -/
def hintsInRange : Expr → Bool
  | .likelihoodExpr _ _ l => decide ((0 : ℚ) ≤ l) && decide (l ≤ 1)
  | .uoper _ _ a => hintsInRange a
  | .binOper _ _ _ l r => hintsInRange l && hintsInRange r
  | _ => true

/-- Range lemma for claim C4: under in-range hints, `get_likelihood` is either
the invalid estimate or a value in the unit interval. -/
theorem get_likelihood_range (e : Expr) (h : hintsInRange e = true) :
    get_likelihood e = none ∨
      ∃ x, get_likelihood e = some x ∧ 0 ≤ x ∧ x ≤ 1 := by
  match e with
  | .columnVar _ _ _ => left; rfl
  | .constant _ _ _ => left; rfl
  | .likeExpr _ _ _ _ _ => left; rfl
  | .regexpExpr _ _ _ _ => left; rfl
  | .functionOper _ _ _ => left; rfl
  | .aggExpr _ _ _ _ => left; rfl
  | .likelihoodExpr t a l =>
      right
      refine ⟨l, rfl, ?_, ?_⟩ <;>
        simp only [hintsInRange, Bool.and_eq_true, decide_eq_true_eq] at h
      · exact h.1
      · exact h.2
  | .uoper t op a =>
      simp only [hintsInRange] at h
      rcases get_likelihood_range a h with ha | ⟨x, hx, hx0, hx1⟩
      · left; simp [get_likelihood, ha]
      · by_cases hop : op == SQLOps.kNOT
        · right
          exact ⟨1 - x, by simp [get_likelihood, hx, hop, lkSub], by linarith,
            by linarith⟩
        · right
          exact ⟨x, by simp [get_likelihood, hx, hop], hx0, hx1⟩
  | .binOper t op q l r =>
      simp only [hintsInRange, Bool.and_eq_true] at h
      rcases get_likelihood_range l h.1 with hl | ⟨x, hx, hx0, hx1⟩ <;>
        rcases get_likelihood_range r h.2 with hr | ⟨y, hy, hy0, hy1⟩
      · left; simp [get_likelihood, hl, hr]
      · left
        by_cases hop : op == SQLOps.kOR <;>
          by_cases hop2 : op == SQLOps.kAND <;>
          simp [get_likelihood, hl, hy, hop, hop2, lkSub, lkMul, lkAdd,
            lkDivScalar]
      · left
        by_cases hop : op == SQLOps.kOR <;>
          by_cases hop2 : op == SQLOps.kAND <;>
          simp [get_likelihood, hx, hr, hop, hop2, lkSub, lkMul, lkAdd,
            lkDivScalar]
      · right
        by_cases hop : op == SQLOps.kOR
        · refine ⟨1 - (1 - x) * (1 - y), ?_, ?_, ?_⟩
          · simp [get_likelihood, hx, hy, hop, lkSub, lkMul]
          · nlinarith
          · nlinarith
        · by_cases hop2 : op == SQLOps.kAND
          · refine ⟨x * y, ?_, ?_, ?_⟩
            · simp [get_likelihood, hx, hy, hop, hop2, lkMul]
            · positivity
            · nlinarith
          · refine ⟨(x + y) / 2, ?_, ?_, ?_⟩
            · simp [get_likelihood, hx, hy, hop, hop2, lkAdd, lkDivScalar]
            · positivity
            · linarith

/-- Claim C4: `get_likelihood` returns values in the unit interval (given
in-range hints) and satisfies the recursive equations of the specification: an
explicit hint is returned directly, NOT complements, AND multiplies, OR
combines complements, and an unrecognized expression or an operand with
unknown likelihood invalidates the estimate (the invalid estimate, not
zero). -/
theorem claim_C4_get_likelihood :
    (∀ e, hintsInRange e = true →
      get_likelihood e = none ∨
        ∃ x, get_likelihood e = some x ∧ 0 ≤ x ∧ x ≤ 1) ∧
    (∀ t a l, get_likelihood (.likelihoodExpr t a l) = some l) ∧
    (∀ t a x, get_likelihood a = some x →
      get_likelihood (.uoper t .kNOT a) = some (1 - x)) ∧
    (∀ t q l r x y, get_likelihood l = some x → get_likelihood r = some y →
      get_likelihood (.binOper t .kAND q l r) = some (x * y)) ∧
    (∀ t q l r x y, get_likelihood l = some x → get_likelihood r = some y →
      get_likelihood (.binOper t .kOR q l r) = some (1 - (1 - x) * (1 - y))) ∧
    (∀ t i c, get_likelihood (.columnVar t i c) = none) ∧
    (∀ t n v, get_likelihood (.constant t n v) = none) ∧
    (∀ t nm args, get_likelihood (.functionOper t nm args) = none) ∧
    (∀ t op a, get_likelihood a = none →
      get_likelihood (.uoper t op a) = none) ∧
    (∀ t op q l r, get_likelihood l = none → get_likelihood r = none →
      get_likelihood (.binOper t op q l r) = none) ∧
    (∀ t q l r x, get_likelihood l = some x → get_likelihood r = none →
      get_likelihood (.binOper t .kAND q l r) = none) := by
  refine ⟨get_likelihood_range, ?_, ?_, ?_, ?_, ?_, ?_, ?_, ?_, ?_, ?_⟩
  · intro t a l; rfl
  · intro t a x hx; simp [get_likelihood, hx, lkSub]
  · intro t q l r x y hx hy; simp [get_likelihood, hx, hy, lkMul]
  · intro t q l r x y hx hy; simp [get_likelihood, hx, hy, lkSub, lkMul]
  · intro t i c; rfl
  · intro t n v; rfl
  · intro t nm args; rfl
  · intro t op a ha; simp [get_likelihood, ha]
  · intro t op q l r hl hr; simp [get_likelihood, hl, hr]
  · intro t q l r x hx hr; simp [get_likelihood, hx, hr, lkMul]

/-- Witness for claim C4 at concrete inputs: a NOT over a hint of 3/4 yields
1/4, and an AND of hints 1/2 and 1/2 yields 1/4. -/
theorem claim_C4_witness :
    get_likelihood (.uoper (.boolean false) .kNOT
        (.likelihoodExpr (.boolean false) (.columnVar (.boolean false) 0 0)
          (3/4))) = some (1/4) ∧
    get_likelihood (.binOper (.boolean false) .kAND .kONE
        (.likelihoodExpr (.boolean false) (.columnVar (.boolean false) 0 0)
          (1/2))
        (.likelihoodExpr (.boolean false) (.columnVar (.boolean false) 0 1)
          (1/2))) = some (1/4) := by
  constructor
  · have h := claim_C4_get_likelihood.2.2.1 (.boolean false)
      (.likelihoodExpr (.boolean false) (.columnVar (.boolean false) 0 0)
        (3/4)) (3/4) rfl
    rw [h]; norm_num
  · have h := claim_C4_get_likelihood.2.2.2.1 (.boolean false) .kONE
      (.likelihoodExpr (.boolean false) (.columnVar (.boolean false) 0 0)
        (1/2))
      (.likelihoodExpr (.boolean false) (.columnVar (.boolean false) 0 1)
        (1/2)) (1/2) (1/2) rfl rfl
    rw [h]; norm_num

/-- Claim C5: cost estimation by `get_weight`.  A LIKE node scores 200 for a
simple pattern and 1000 otherwise; REGEXP scores 2000; a unary operator adds 1
over its operand weight; a binary operator adds 1 over the sum of its operand
weights, with a surcharge of 100 added to the weight of an array-typed right
operand; any other node is unscored at recursion depth at most 4 and scores a
flat 1 below that depth. -/
theorem claim_C5_get_weight :
    (∀ t a p esc d, get_weight (.likeExpr t a p esc true) d = some 200 ∧
      get_weight (.likeExpr t a p esc false) d = some 1000) ∧
    (∀ t a p esc d, get_weight (.regexpExpr t a p esc) d = some 2000) ∧
    (∀ t op a d x, get_weight a (d + 1) = some x →
      get_weight (.uoper t op a) d = some (x + 1)) ∧
    (∀ t op q l r d x y, get_weight l (d + 1) = some x →
      get_weight r (d + 1) = some y → (r.type).isArray = false →
      get_weight (.binOper t op q l r) d = some (x + y + 1)) ∧
    (∀ t op q l r d x y, get_weight l (d + 1) = some x →
      get_weight r (d + 1) = some y → (r.type).isArray = true →
      get_weight (.binOper t op q l r) d = some (x + (y + 100) + 1)) ∧
    (∀ t i c d, 4 < d → get_weight (.columnVar t i c) d = some 1) ∧
    (∀ t i c d, d ≤ 4 → get_weight (.columnVar t i c) d = none) ∧
    (∀ t n v d, 4 < d → get_weight (.constant t n v) d = some 1) ∧
    (∀ t n v d, d ≤ 4 → get_weight (.constant t n v) d = none) := by
  refine ⟨?_, ?_, ?_, ?_, ?_, ?_, ?_, ?_, ?_⟩
  · intro t a p esc d; exact ⟨rfl, rfl⟩
  · intro t a p esc d; rfl
  · intro t op a d x hx; simp [get_weight, hx, wAddScalar]
  · intro t op q l r d x y hx hy harr
    simp [get_weight, hx, hy, harr, wAdd, wAddScalar]
  · intro t op q l r d x y hx hy harr
    simp [get_weight, hx, hy, harr, wAdd, wAddScalar]
  · intro t i c d hd; simp [get_weight, hd]
  · intro t i c d hd; simp [get_weight, Nat.not_lt.mpr hd]
  · intro t n v d hd; simp [get_weight, hd]
  · intro t n v d hd; simp [get_weight, Nat.not_lt.mpr hd]

/-- Witness for claim C5 at a concrete input: a NOT over a simple LIKE at
depth 0 weighs 201, and a column reference at depth 0 is unscored. -/
theorem claim_C5_witness :
    get_weight (.uoper (.boolean false) .kNOT
        (.likeExpr (.boolean false) (.columnVar (.text true) 0 0)
          (.constant (.text false) false (.stringval "a"))
          none true)) 0 = some 201 ∧
    get_weight (.columnVar (.boolean false) 0 0) 0 = none := by
  constructor
  · exact claim_C5_get_weight.2.2.1 (.boolean false) .kNOT
      (.likeExpr (.boolean false) (.columnVar (.text true) 0 0)
        (.constant (.text false) false (.stringval "a")) none true) 0 200 rfl
  · exact claim_C5_get_weight.2.2.2.2.2.2.1 (.boolean false) 0 0 0
      (by norm_num)

mutual
/-- Spec-side view of the predicate-collecting traversal: whether any node of
the tree (the root included) satisfies the predicate. -/
def anySubexpr (p : Expr → Bool) (e : Expr) : Bool :=
  p e ||
  (match e with
   | .columnVar _ _ _ => false
   | .constant _ _ _ => false
   | .uoper _ _ operand => anySubexpr p operand
   | .binOper _ _ _ lhs rhs => anySubexpr p lhs || anySubexpr p rhs
   | .likeExpr _ arg pat esc _ =>
       anySubexpr p arg || anySubexpr p pat || anySubexprOpt p esc
   | .regexpExpr _ arg pat esc =>
       anySubexpr p arg || anySubexpr p pat || anySubexprOpt p esc
   | .functionOper _ _ args => anySubexprList p args
   | .likelihoodExpr _ arg _ => anySubexpr p arg
   | .aggExpr _ _ arg _ => anySubexprOpt p arg)

/-- Any-node test for an optional child. -/
def anySubexprOpt (p : Expr → Bool) (e : Option Expr) : Bool :=
  match e with
  | none => false
  | some x => anySubexpr p x

/-- Any-node test for a child list. -/
def anySubexprList (p : Expr → Bool) (es : List Expr) : Bool :=
  match es with
  | [] => false
  | x :: xs => anySubexpr p x || anySubexprList p xs
end

/-- Emptiness of an appended list, as a boolean equation. -/
theorem isEmpty_append_eq {α : Type} (l1 l2 : List α) :
    (l1 ++ l2).isEmpty = (l1.isEmpty && l2.isEmpty) := by
  cases l1 <;> simp

mutual
/-- The collected list of matching nodes is empty exactly when no node of the
tree matches. -/
theorem collect_isEmpty (p : Expr → Bool) (e : Expr) :
    (collectByPred p e).isEmpty = !anySubexpr p e := by
  cases e with
  | columnVar t i c =>
      by_cases hp : p (.columnVar t i c) <;>
        simp [collectByPred, anySubexpr, hp]
  | constant t n v =>
      by_cases hp : p (.constant t n v) <;>
        simp [collectByPred, anySubexpr, hp]
  | uoper t op a =>
      by_cases hp : p (.uoper t op a) <;>
        simp [collectByPred, anySubexpr, hp, isEmpty_append_eq,
          collect_isEmpty p a]
  | binOper t op q l r =>
      by_cases hp : p (.binOper t op q l r) <;>
        simp [collectByPred, anySubexpr, hp, isEmpty_append_eq,
          collect_isEmpty p l, collect_isEmpty p r]
  | likeExpr t a pa esc s =>
      by_cases hp : p (.likeExpr t a pa esc s) <;>
        simp [collectByPred, anySubexpr, hp, isEmpty_append_eq,
          collect_isEmpty p a, collect_isEmpty p pa, collect_isEmpty_opt p esc,
          Bool.and_assoc]
  | regexpExpr t a pa esc =>
      by_cases hp : p (.regexpExpr t a pa esc) <;>
        simp [collectByPred, anySubexpr, hp, isEmpty_append_eq,
          collect_isEmpty p a, collect_isEmpty p pa, collect_isEmpty_opt p esc,
          Bool.and_assoc]
  | functionOper t nm args =>
      by_cases hp : p (.functionOper t nm args) <;>
        simp [collectByPred, anySubexpr, hp, isEmpty_append_eq,
          collect_isEmpty_list p args]
  | likelihoodExpr t a l =>
      by_cases hp : p (.likelihoodExpr t a l) <;>
        simp [collectByPred, anySubexpr, hp, isEmpty_append_eq,
          collect_isEmpty p a]
  | aggExpr t g a d =>
      by_cases hp : p (.aggExpr t g a d) <;>
        simp [collectByPred, anySubexpr, hp, isEmpty_append_eq,
          collect_isEmpty_opt p a]

/-- Optional-child case of `collect_isEmpty`. -/
theorem collect_isEmpty_opt (p : Expr → Bool) (e : Option Expr) :
    (collectByPredOpt p e).isEmpty = !anySubexprOpt p e := by
  cases e with
  | none => rfl
  | some x => simp [collectByPredOpt, anySubexprOpt, collect_isEmpty p x]

/-- List-child case of `collect_isEmpty`. -/
theorem collect_isEmpty_list (p : Expr → Bool) (es : List Expr) :
    (collectByPredList p es).isEmpty = !anySubexprList p es := by
  cases es with
  | nil => rfl
  | cons x xs =>
      simp [collectByPredList, anySubexprList, isEmpty_append_eq,
        collect_isEmpty p x, collect_isEmpty_list p xs]
end

/-- Containment of an unsafe division coincides with the any-node view. -/
theorem contains_unsafe_division_eq_any (e : Expr) :
    contains_unsafe_division e = anySubexpr is_div e := by
  unfold contains_unsafe_division
  rw [collect_isEmpty]
  cases anySubexpr is_div e <;> rfl

/-- Zero test on a literal payload, the spec-side notion of a literal zero:
any boolean, integer, decimal or floating-point payload equal to zero.  A
string payload is never a literal zero. -/
def datumIsZero : Datum → Bool
  | .boolval v => v == 0
  | .tinyintval v => v == 0
  | .smallintval v => v == 0
  | .intval v => v == 0
  | .bigintval v => v == 0
  | .floatval v => v == 0
  | .doubleval v => v == 0
  | .stringval _ => false

/-- Well-formedness of one literal: the stored union field corresponds to the
declared type, as every planner-produced constant satisfies. -/
def constOk (ty : IRType) (d : Datum) : Bool :=
  match d with
  | .boolval _ => ty.isBoolean
  | .tinyintval _ => ty.isInt8
  | .smallintval _ => ty.isInt16
  | .intval _ => ty.isInt32
  | .bigintval _ => ty.isInt64 || ty.isDecimal
  | .floatval _ => ty.isFp32
  | .doubleval _ => ty.isFp64
  | .stringval _ => ty.isString

mutual
/-- Well-formedness of every literal in an expression tree. -/
def wellFormedConsts : Expr → Bool
  | .columnVar _ _ _ => true
  | .constant ty _ d => constOk ty d
  | .uoper _ _ operand => wellFormedConsts operand
  | .binOper _ _ _ lhs rhs => wellFormedConsts lhs && wellFormedConsts rhs
  | .likeExpr _ arg pat esc _ =>
      wellFormedConsts arg && wellFormedConsts pat && wellFormedConstsOpt esc
  | .regexpExpr _ arg pat esc =>
      wellFormedConsts arg && wellFormedConsts pat && wellFormedConstsOpt esc
  | .functionOper _ _ args => wellFormedConstsList args
  | .likelihoodExpr _ arg _ => wellFormedConsts arg
  | .aggExpr _ _ arg _ => wellFormedConstsOpt arg

/-- Well-formedness of an optional child. -/
def wellFormedConstsOpt : Option Expr → Bool
  | none => true
  | some x => wellFormedConsts x

/-- Well-formedness of a child list. -/
def wellFormedConstsList : List Expr → Bool
  | [] => true
  | x :: xs => wellFormedConsts x && wellFormedConstsList xs
end

/-- Spec-side unsafe-division node test, written from the words of the claim:
a binary divide whose divisor is a literal zero, a null constant, or a
non-constant expression. -/
def unsafeDivNodeSpec : Expr → Bool
  | .binOper _ op _ _ rhs =>
      op == .kDIVIDE &&
        (match rhs with
         | .constant _ isNull d => isNull || datumIsZero d
         | _ => true)
  | _ => false

/-- Spec-side deferral classification, written from the words of the claim:
LIKE, REGEXP and function-operator calls are deferred, as is a binary operator
containing a division with an unsafe divisor or whose right operand has array
type. -/
def shouldDeferSpec (e : Expr) : Bool :=
  match e with
  | .likeExpr _ _ _ _ _ => true
  | .regexpExpr _ _ _ _ => true
  | .functionOper _ _ _ => true
  | .binOper _ _ _ _ rhs =>
      anySubexpr unsafeDivNodeSpec e || (rhs.type).isArray
  | _ => false

/-- On a node with well-formed literals, the source unsafe-division test agrees
with the spec-side one. -/
theorem is_div_eq_spec (e : Expr) (h : wellFormedConsts e = true) :
    is_div e = unsafeDivNodeSpec e := by
  cases e with
  | binOper t op q l r =>
      cases r with
      | constant ty isNull d =>
          have hok : constOk ty d = true := by
            simp [wellFormedConsts] at h
            exact h.2
          cases d <;> cases ty <;>
            simp_all [is_div, unsafeDivNodeSpec, constOk, datumIsZero,
              IRType.isBoolean, IRType.isInt8, IRType.isInt16, IRType.isInt32,
              IRType.isInt64, IRType.isDecimal, IRType.isFp32, IRType.isFp64,
              IRType.isString, IRType.isInteger, IRType.isFloatingPoint,
              IRType.size, Datum.boolField, Datum.tinyintField,
              Datum.smallintField, Datum.intField, Datum.bigintField,
              Datum.floatField, Datum.doubleField]
      | columnVar t2 i c => rfl
      | uoper t2 o a => rfl
      | binOper t2 o q2 a b => rfl
      | likeExpr t2 a p esc s => rfl
      | regexpExpr t2 a p esc => rfl
      | functionOper t2 nm args => rfl
      | likelihoodExpr t2 a lk => rfl
      | aggExpr t2 g a dd => rfl
  | columnVar t i c => rfl
  | constant t n v => rfl
  | uoper t o a => rfl
  | likeExpr t a p esc s => rfl
  | regexpExpr t a p esc => rfl
  | functionOper t nm args => rfl
  | likelihoodExpr t a l => rfl
  | aggExpr t g a d => rfl

mutual
/-- Under well-formed literals, the source any-unsafe-division traversal agrees
with the spec-side one on the whole tree. -/
theorem any_is_div_eq_spec (e : Expr) (h : wellFormedConsts e = true) :
    anySubexpr is_div e = anySubexpr unsafeDivNodeSpec e := by
  cases e with
  | columnVar t i c => rfl
  | constant t n v =>
      simp [anySubexpr, is_div_eq_spec _ h]
  | uoper t op a =>
      have ha : wellFormedConsts a = true := by
        simpa [wellFormedConsts] using h
      simp [anySubexpr, is_div_eq_spec _ h, any_is_div_eq_spec a ha]
  | binOper t op q l r =>
      have hw : wellFormedConsts l = true ∧ wellFormedConsts r = true := by
        simpa [wellFormedConsts] using h
      simp [anySubexpr, is_div_eq_spec _ h, any_is_div_eq_spec l hw.1,
        any_is_div_eq_spec r hw.2]
  | likeExpr t a pa esc s =>
      have hw : (wellFormedConsts a = true ∧ wellFormedConsts pa = true) ∧
          wellFormedConstsOpt esc = true := by
        simpa [wellFormedConsts] using h
      simp [anySubexpr, is_div_eq_spec _ h, any_is_div_eq_spec a hw.1.1,
        any_is_div_eq_spec pa hw.1.2, any_is_div_eq_spec_opt esc hw.2]
  | regexpExpr t a pa esc =>
      have hw : (wellFormedConsts a = true ∧ wellFormedConsts pa = true) ∧
          wellFormedConstsOpt esc = true := by
        simpa [wellFormedConsts] using h
      simp [anySubexpr, is_div_eq_spec _ h, any_is_div_eq_spec a hw.1.1,
        any_is_div_eq_spec pa hw.1.2, any_is_div_eq_spec_opt esc hw.2]
  | functionOper t nm args =>
      have hw : wellFormedConstsList args = true := by
        simpa [wellFormedConsts] using h
      simp [anySubexpr, is_div_eq_spec _ h, any_is_div_eq_spec_list args hw]
  | likelihoodExpr t a l =>
      have ha : wellFormedConsts a = true := by
        simpa [wellFormedConsts] using h
      simp [anySubexpr, is_div_eq_spec _ h, any_is_div_eq_spec a ha]
  | aggExpr t g a d =>
      have ha : wellFormedConstsOpt a = true := by
        simpa [wellFormedConsts] using h
      simp [anySubexpr, is_div_eq_spec _ h, any_is_div_eq_spec_opt a ha]

/-- Optional-child case of `any_is_div_eq_spec`. -/
theorem any_is_div_eq_spec_opt (e : Option Expr)
    (h : wellFormedConstsOpt e = true) :
    anySubexprOpt is_div e = anySubexprOpt unsafeDivNodeSpec e := by
  cases e with
  | none => rfl
  | some x =>
      simp [anySubexprOpt, any_is_div_eq_spec x (by simpa [wellFormedConstsOpt]
        using h)]

/-- List-child case of `any_is_div_eq_spec`. -/
theorem any_is_div_eq_spec_list (es : List Expr)
    (h : wellFormedConstsList es = true) :
    anySubexprList is_div es = anySubexprList unsafeDivNodeSpec es := by
  cases es with
  | nil => rfl
  | cons x xs =>
      have hw : wellFormedConsts x = true ∧ wellFormedConstsList xs = true := by
        simpa [wellFormedConstsList] using h
      simp [anySubexprList, any_is_div_eq_spec x hw.1,
        any_is_div_eq_spec_list xs hw.2]
end

/-- The source unsafe-division test fires on a divide by a well-formed
zero-valued constant. -/
theorem is_div_true_of_zero (t : IRType) (qf : SQLQualifier) (lhs : Expr)
    (cty : IRType) (d : Datum) (hok : constOk cty d = true)
    (hz : datumIsZero d = true) :
    is_div (.binOper t .kDIVIDE qf lhs (.constant cty false d)) = true := by
  cases d <;> cases cty <;>
    simp_all [is_div, constOk, datumIsZero, IRType.isBoolean, IRType.isInt8,
      IRType.isInt16, IRType.isInt32, IRType.isInt64, IRType.isDecimal,
      IRType.isFp32, IRType.isFp64, IRType.isString, IRType.isInteger,
      IRType.isFloatingPoint, IRType.size, Datum.boolField,
      Datum.tinyintField, Datum.smallintField, Datum.intField,
      Datum.bigintField, Datum.floatField, Datum.doubleField]

/-- A qualifier whose root already matches the unsafe-division test contains an
unsafe division. -/
theorem contains_unsafe_of_root (e : Expr) (h : is_div e = true) :
    contains_unsafe_division e = true := by
  rw [contains_unsafe_division_eq_any]
  unfold anySubexpr
  cases e <;> simp_all

/-- Any non-hoisted general qualifier that both contains an unsafe division
and is classified deferrable lands in the deferred list of the general-quals
loop, whatever the incoming short-circuit flag. -/
theorem mem_deferred_general (hoisted : List Expr) (e : Expr)
    (hdef : should_defer_eval e = true)
    (hun : contains_unsafe_division e = true) :
    ∀ (qs : List Expr) (sc : Bool), e ∈ qs →
      hoistedMem hoisted e = false →
      e ∈ (prioritizeGeneral hoisted sc qs).2.1 := by
  intro qs
  induction qs with
  | nil =>
      intro sc hmem _
      exact absurd hmem (List.not_mem_nil e)
  | cons a as ih =>
      intro sc hmem hh
      rcases List.mem_cons.mp hmem with rfl | hmem2
      · have hcond : shortCircuitCond e = false := by
          simp [shortCircuitCond, hun]
        simp [prioritizeGeneral, hh, hcond, hdef]
      · by_cases hha : hoistedMem hoisted a
        · simpa [prioritizeGeneral, hha] using ih sc hmem2 hh
        · by_cases hca : shortCircuitCond a && !sc
          · simpa [prioritizeGeneral, hha, hca] using ih true hmem2 hh
          · by_cases hda : sc || should_defer_eval a
            · simpa [prioritizeGeneral, hha, hca, hda] using
                List.mem_cons_of_mem a (ih sc hmem2 hh)
            · simpa [prioritizeGeneral, hha, hca, hda] using ih sc hmem2 hh

/-- Claim C3: the deferral classification of `should_defer_eval` coincides, on
well-formed qualifier expressions, with the spec description (LIKE, REGEXP or
function-operator call; or a binary operator containing a division whose
divisor is a literal zero, a null constant or a non-constant expression; or a
binary operator with an array-typed right operand); and a binary divide
qualifier with a non-nullable literal-zero divisor among the general quals of
an execution unit is always placed into the deferred set by
`prioritizeQuals`, regardless of its estimated likelihood. -/
theorem claim_C3_should_defer_eval :
    (∀ e, wellFormedConsts e = true →
      should_defer_eval e = shouldDeferSpec e) ∧
    (∀ (u : RelAlgExecutionUnit) (hoisted : List Expr) (t : IRType)
        (qf : SQLQualifier) (lhs : Expr) (cty : IRType) (d : Datum),
      constOk cty d = true → datumIsZero d = true → cty.nullable = false →
      Expr.binOper t .kDIVIDE qf lhs (.constant cty false d) ∈ u.quals →
      hoistedMem hoisted
        (.binOper t .kDIVIDE qf lhs (.constant cty false d)) = false →
      Expr.binOper t .kDIVIDE qf lhs (.constant cty false d) ∈
        (prioritizeQuals u hoisted).2.1) := by
  constructor
  · intro e h
    cases e with
    | binOper t op q l r =>
        show (contains_unsafe_division (.binOper t op q l r) ||
          (r.type).isArray) = _
        rw [contains_unsafe_division_eq_any, any_is_div_eq_spec _ h]
        rfl
    | columnVar t i c => rfl
    | constant t n v => rfl
    | uoper t o a => rfl
    | likeExpr t a p esc s => rfl
    | regexpExpr t a p esc => rfl
    | functionOper t nm args => rfl
    | likelihoodExpr t a l => rfl
    | aggExpr t g a dd => rfl
  · intro u hoisted t qf lhs cty d hok hz hnn hmem hh
    have hdiv := is_div_true_of_zero t qf lhs cty d hok hz
    have hun := contains_unsafe_of_root _ hdiv
    have hdef : should_defer_eval
        (.binOper t .kDIVIDE qf lhs (.constant cty false d)) = true := by
      simp [should_defer_eval, hun]
    have hg := mem_deferred_general hoisted _ hdef hun u.quals false hmem hh
    simp only [prioritizeQuals]
    exact List.mem_append_right _ hg

/-- Concrete LIKE qualifier over a text column, used by witnesses below. -/
def likeQualEx : Expr :=
  .likeExpr (.boolean false) (.columnVar (.text true) 1 2)
    (.constant (.text false) false (.stringval "a%")) none false

/-- Witness for claim C3 at concrete inputs: a LIKE qualifier is deferred, and
the qualifier x / 0 over a non-nullable 4-byte-integer zero ends up in the
deferred set of an execution unit holding it as its only general qual. -/
theorem claim_C3_witness :
    should_defer_eval likeQualEx = shouldDeferSpec likeQualEx ∧
      Expr.binOper (.integer 4 true) .kDIVIDE .kONE
          (.columnVar (.integer 4 false) 1 1)
          (.constant (.integer 4 false) false (.intval 0)) ∈
        (prioritizeQuals ⟨[], [.binOper (.integer 4 true) .kDIVIDE .kONE
          (.columnVar (.integer 4 false) 1 1)
          (.constant (.integer 4 false) false (.intval 0))]⟩ []).2.1 := by
  constructor
  · exact claim_C3_should_defer_eval.1 likeQualEx rfl
  · exact claim_C3_should_defer_eval.2
      ⟨[], [.binOper (.integer 4 true) .kDIVIDE .kONE
        (.columnVar (.integer 4 false) 1 1)
        (.constant (.integer 4 false) false (.intval 0))]⟩ []
      (.integer 4 true) .kONE (.columnVar (.integer 4 false) 1 1)
      (.integer 4 false) (.intval 0) rfl rfl rfl
      (List.mem_singleton.mpr rfl) rfl

/-- Simple-quals loop computed in closed form: the non-hoisted simple quals
split by the defer classification. -/
theorem prioritizeSimple_eq (hoisted : List Expr) (l : List Expr) :
    prioritizeSimple hoisted l =
      (l.filter (fun e => !hoistedMem hoisted e && !should_defer_eval e),
       l.filter (fun e => !hoistedMem hoisted e && should_defer_eval e)) := by
  induction l with
  | nil => rfl
  | cons a as ih =>
      by_cases hh : hoistedMem hoisted a
      · simp [prioritizeSimple, hh, List.filter_cons, ih]
      · by_cases hd : should_defer_eval a <;>
          simp [prioritizeSimple, hh, hd, List.filter_cons, ih]

/-- Once the short-circuit flag is set, every later non-hoisted general qual is
deferred. -/
theorem prioritizeGeneral_sc_true (hoisted : List Expr) (l : List Expr) :
    prioritizeGeneral hoisted true l =
      ([], l.filter (fun e => !hoistedMem hoisted e), true) := by
  induction l with
  | nil => rfl
  | cons a as ih =>
      by_cases hh : hoistedMem hoisted a <;>
        simp [prioritizeGeneral, hh, List.filter_cons, ih]

/-- Spec-side description of the general-quals loop, from the words of the
claim: among the non-hoisted general quals, the first one satisfying the
short-circuit condition is the unique short-circuit point; every qual before
it is classified only by the defer rules, the point itself is primary, every
qual after it is deferred, and the returned flag says whether a point was
found. -/
def generalSplitSpec (hoisted : List Expr) (l : List Expr) :
    List Expr × List Expr × Bool :=
  let active := l.filter (fun e => !hoistedMem hoisted e)
  let before := active.takeWhile (fun e => !shortCircuitCond e)
  match active.dropWhile (fun e => !shortCircuitCond e) with
  | q :: after =>
      (before.filter (fun e => !should_defer_eval e) ++ [q],
       before.filter (fun e => should_defer_eval e) ++ after, true)
  | [] =>
      (active.filter (fun e => !should_defer_eval e),
       active.filter (fun e => should_defer_eval e), false)

/-- The general-quals loop started with a clear flag computes exactly the
first-short-circuit-point split. -/
theorem prioritizeGeneral_false_eq (hoisted : List Expr) (l : List Expr) :
    prioritizeGeneral hoisted false l = generalSplitSpec hoisted l := by
  induction l with
  | nil => rfl
  | cons a as ih =>
      by_cases hh : hoistedMem hoisted a
      · simpa [prioritizeGeneral, hh, generalSplitSpec, List.filter_cons]
          using ih
      · by_cases hc : shortCircuitCond a
        · simp [prioritizeGeneral, hh, hc, prioritizeGeneral_sc_true,
            generalSplitSpec, List.filter_cons]
        · have hstep : prioritizeGeneral hoisted false (a :: as) =
              if should_defer_eval a then
                ((prioritizeGeneral hoisted false as).1,
                 a :: (prioritizeGeneral hoisted false as).2.1,
                 (prioritizeGeneral hoisted false as).2.2)
              else
                (a :: (prioritizeGeneral hoisted false as).1,
                 (prioritizeGeneral hoisted false as).2.1,
                 (prioritizeGeneral hoisted false as).2.2) := by
            by_cases hd : should_defer_eval a <;>
              simp [prioritizeGeneral, hh, hc, hd]
          rw [hstep, ih]
          cases hdrop : List.dropWhile (fun e => !shortCircuitCond e)
              (List.filter (fun e => !hoistedMem hoisted e) as) with
          | nil =>
              by_cases hd : should_defer_eval a <;>
                simp [generalSplitSpec, hdrop, hh, hc, hd, List.filter_cons]
          | cons q after =>
              by_cases hd : should_defer_eval a <;>
                simp [generalSplitSpec, hdrop, hh, hc, hd, List.filter_cons]

/-- Spec-side description of `prioritizeQuals`: simple quals split by the
defer rules, general quals split at the first short-circuit point, and the
flag reporting whether a point was chosen. -/
def prioritizeQualsSpec (u : RelAlgExecutionUnit) (hoisted : List Expr) :
    List Expr × List Expr × Bool :=
  let g := generalSplitSpec hoisted u.quals
  (u.simple_quals.filter
      (fun e => !hoistedMem hoisted e && !should_defer_eval e) ++ g.1,
   u.simple_quals.filter
      (fun e => !hoistedMem hoisted e && should_defer_eval e) ++ g.2.1,
   g.2.2)

/-- Concrete general qual with a likelihood hint of 0.05 and no unsafe
division. -/
def q1Ex : Expr :=
  .likelihoodExpr (.boolean false) (.columnVar (.integer 4 true) 1 1) (1/20)

/-- Concrete general qual with a likelihood hint of 0.5. -/
def q3Ex : Expr :=
  .likelihoodExpr (.boolean false) (.columnVar (.integer 4 true) 1 3) (1/2)

/-- Claim C2: `prioritizeQuals` computes exactly the first-short-circuit-point
split of the claim — at most one general qualifier (the first non-hoisted one
with estimated likelihood below 0.10 and no unsafe division) becomes the
short-circuit point, every general qualifier after it is deferred, the ones
before it are classified only by the defer rules, and the returned flag is
true exactly when such a point was chosen; in particular, for general quals
q1 (likelihood 0.05, safe), q2 (a LIKE) and q3 (likelihood 0.5) the result is
q1 primary, q2 and q3 deferred, with flag true. -/
theorem claim_C2_prioritizeQuals :
    (∀ (u : RelAlgExecutionUnit) (hoisted : List Expr),
      prioritizeQuals u hoisted = prioritizeQualsSpec u hoisted) ∧
    prioritizeQuals ⟨[], [q1Ex, likeQualEx, q3Ex]⟩ [] =
      ([q1Ex], [likeQualEx, q3Ex], true) := by
  constructor
  · intro u hoisted
    simp [prioritizeQuals, prioritizeQualsSpec, prioritizeSimple_eq,
      prioritizeGeneral_false_eq]
  · have hc1 : shortCircuitCond q1Ex = true := by
      have hl : get_likelihood q1Ex = some (1/20) := rfl
      have hco : contains_unsafe_division q1Ex = false := rfl
      simp [shortCircuitCond, hl, hco, lkLt]
      norm_num
    simp [prioritizeQuals, prioritizeSimple, prioritizeGeneral, hoistedMem,
      hc1, prioritizeGeneral_sc_true]

/-- Milliseconds per second (Shared/sqldefs constant). -/
def kMilliSecsPerSec : Int := 1000

/-- Microseconds per second (Shared/sqldefs constant). -/
def kMicroSecsPerSec : Int := 1000000

/-- Nanoseconds per second (Shared/sqldefs constant). -/
def kNanoSecsPerSec : Int := 1000000000

/-- Embedding of `DateTimeUtils::get_timestamp_precision_scale`: the scale for
a fractional-second precision, throwing (modelled as `Except.error`) for an
unknown precision. -/
def get_timestamp_precision_scale (dimen : Int) : Except String Int :=
  if dimen = 0 then .ok 1
  else if dimen = 3 then .ok kMilliSecsPerSec
  else if dimen = 6 then .ok kMicroSecsPerSec
  else if dimen = 9 then .ok kNanoSecsPerSec
  else .error "Unknown dimen"

/-- Wrap of an integer into the signed 64-bit range, modelling the bit-level
result of overflowing 64-bit arithmetic. -/
def wrap64 (x : Int) : Int := (x + 2 ^ 63) % 2 ^ 64 - 2 ^ 63

/-- C++ integer division, truncating toward zero. -/
def cppDiv (a b : Int) : Int := a.tdiv b

/-- Scaling direction (`DateTimeUtils::ScalingType`). -/
inductive ScalingType where
  | ScaleUp
  | ScaleDown
  deriving DecidableEq, Repr

/-- Embedding of `DateTimeUtils::get_datetime_scaled_epoch` (direction/dimen
overload): scaling up multiplies by the precision scale in 64-bit arithmetic
and throws when the division-based check detects overflow for a nonzero epoch;
scaling down divides by the precision scale. -/
def get_datetime_scaled_epoch (direction : ScalingType) (epoch : Int)
    (dimen : Int) : Except String Int :=
  match direction with
  | .ScaleUp =>
      match get_timestamp_precision_scale dimen with
      | .error e => .error e
      | .ok scale =>
          let scaled_epoch := wrap64 (epoch * scale)
          if epoch ≠ 0 ∧ epoch ≠ cppDiv scaled_epoch scale then
            .error
              "Value Overflow/underflow detected while scaling DateTime precision."
          else .ok scaled_epoch
  | .ScaleDown =>
      match get_timestamp_precision_scale dimen with
      | .error e => .error e
      | .ok scale => .ok (cppDiv epoch scale)

/-- Truncating remainder is smaller in magnitude than a positive divisor. -/
theorem abs_tmod_lt (a b : Int) (hb : 0 < b) : |a.tmod b| < b := by
  rcases a with m | m <;> rcases b with n | n
  · have h1 : (Int.ofNat m).tmod (Int.ofNat n) = Int.ofNat (m % n) := rfl
    rw [h1, Int.ofNat_eq_coe, Int.ofNat_eq_coe] at *
    have hn : 0 < n := by exact_mod_cast hb
    have h2 : (m % n : ℕ) < n := Nat.mod_lt _ hn
    rw [abs_of_nonneg (by positivity)]
    exact_mod_cast h2
  · have : Int.negSucc n < 0 := Int.negSucc_lt_zero n
    omega
  · have h1 : (Int.negSucc m).tmod (Int.ofNat n) = -Int.ofNat ((m + 1) % n) :=
      rfl
    rw [h1, Int.ofNat_eq_coe, Int.ofNat_eq_coe] at *
    have hn : 0 < n := by exact_mod_cast hb
    have h2 : ((m + 1) % n : ℕ) < n := Nat.mod_lt _ hn
    rw [abs_neg, abs_of_nonneg (by positivity)]
    exact_mod_cast h2
  · have : Int.negSucc n < 0 := Int.negSucc_lt_zero n
    omega

/-- Wrap is the identity on the signed 64-bit range. -/
theorem wrap64_eq_of_range (x : Int) (h1 : -(2 ^ 63) ≤ x) (h2 : x < 2 ^ 63) :
    wrap64 x = x := by
  unfold wrap64
  rw [Int.emod_eq_of_lt (by linarith) (by norm_num; linarith)]
  ring

/-- The wrapped value stays in the signed 64-bit range. -/
theorem wrap64_range (x : Int) :
    -(2 ^ 63) ≤ wrap64 x ∧ wrap64 x < 2 ^ 63 := by
  unfold wrap64
  have h1 : 0 ≤ (x + 2 ^ 63) % 2 ^ 64 := Int.emod_nonneg _ (by norm_num)
  have h2 : (x + 2 ^ 63) % 2 ^ 64 < 2 ^ 64 :=
    Int.emod_lt_of_pos _ (by norm_num)
  constructor <;> [linarith; nlinarith]

/-- The wrapped value differs from the original by a multiple of 2 to the
64. -/
theorem wrap64_sub_dvd (x : Int) : (2 ^ 64 : Int) ∣ (x - wrap64 x) := by
  unfold wrap64
  have h := Int.ediv_add_emod (x + 2 ^ 63) (2 ^ 64)
  refine ⟨(x + 2 ^ 63) / 2 ^ 64, by linarith⟩

/-- Key uniqueness step for the overflow check: if truncated division of the
wrapped product by a small positive scale recovers the multiplier, the product
did not overflow. -/
theorem wrap64_mul_exact_of_div (e scale : Int) (hs : 0 < scale)
    (hle : scale ≤ 1000000000)
    (hq : cppDiv (wrap64 (e * scale)) scale = e) :
    wrap64 (e * scale) = e * scale := by
  set w := wrap64 (e * scale) with hw
  simp only [cppDiv] at hq
  have hmod := Int.tdiv_add_tmod w scale
  rw [hq] at hmod
  have hdiff : w - e * scale = w.tmod scale := by linarith
  have habs : |w - e * scale| < 2 ^ 64 := by
    rw [hdiff]
    have := abs_tmod_lt w scale hs
    calc |w.tmod scale| < scale := this
    _ ≤ 1000000000 := hle
    _ < 2 ^ 64 := by norm_num
  have hdvd : (2 ^ 64 : Int) ∣ (e * scale - w) := wrap64_sub_dvd (e * scale)
  have hdvd2 : (2 ^ 64 : Int) ∣ (w - e * scale) := by
    rcases hdvd with ⟨k, hk⟩
    exact ⟨-k, by linarith⟩
  have := Int.eq_zero_of_abs_lt_dvd hdvd2 habs
  linarith

/-- Claim C9: for every 64-bit epoch and defined precision, scaling upward
returns the exact product of the epoch and the precision scale whenever that
product is representable in signed 64-bit arithmetic, raises a recoverable
(catchable) overflow error whenever it is not (the epoch then being nonzero),
and never returns a value other than the exact product; scaling downward
returns the truncated quotient of the epoch by the scale and never errors. -/
theorem claim_C9_get_datetime_scaled_epoch (epoch dimen : Int)
    (hd : dimen = 0 ∨ dimen = 3 ∨ dimen = 6 ∨ dimen = 9)
    (he1 : -(2 ^ 63) ≤ epoch) (he2 : epoch < 2 ^ 63) :
    ∃ scale, get_timestamp_precision_scale dimen = .ok scale ∧ 0 < scale ∧
      ((-(2 ^ 63) ≤ epoch * scale ∧ epoch * scale < 2 ^ 63 →
         get_datetime_scaled_epoch .ScaleUp epoch dimen =
           .ok (epoch * scale)) ∧
       (¬(-(2 ^ 63) ≤ epoch * scale ∧ epoch * scale < 2 ^ 63) →
         epoch ≠ 0 ∧
           get_datetime_scaled_epoch .ScaleUp epoch dimen =
             .error
               "Value Overflow/underflow detected while scaling DateTime precision.") ∧
       (∀ v, get_datetime_scaled_epoch .ScaleUp epoch dimen = .ok v →
         v = epoch * scale) ∧
       get_datetime_scaled_epoch .ScaleDown epoch dimen =
         .ok (cppDiv epoch scale)) := by
  have hsc : ∃ s, get_timestamp_precision_scale dimen = .ok s ∧ 0 < s ∧
      s ≤ 1000000000 := by
    rcases hd with rfl | rfl | rfl | rfl
    · exact ⟨1, rfl, by norm_num, by norm_num⟩
    · exact ⟨1000, rfl, by norm_num, by norm_num⟩
    · exact ⟨1000000, rfl, by norm_num, by norm_num⟩
    · exact ⟨1000000000, rfl, by norm_num, by norm_num⟩
  rcases hsc with ⟨scale, hok, hpos, hle⟩
  refine ⟨scale, hok, hpos, ?_, ?_, ?_, ?_⟩
  · intro hrep
    have hwrap : wrap64 (epoch * scale) = epoch * scale :=
      wrap64_eq_of_range _ hrep.1 hrep.2
    have hq : cppDiv (wrap64 (epoch * scale)) scale = epoch := by
      rw [hwrap]
      exact Int.mul_tdiv_cancel epoch (by omega)
    have hcond : ¬(epoch ≠ 0 ∧
        epoch ≠ cppDiv (wrap64 (epoch * scale)) scale) := by
      intro h
      exact h.2 hq.symm
    simp only [get_datetime_scaled_epoch, hok]
    rw [if_neg hcond, hwrap]
  · intro hover
    have hnz : epoch ≠ 0 := by
      rintro rfl
      exact hover (by constructor <;> simp)
    refine ⟨hnz, ?_⟩
    have hne : epoch ≠ cppDiv (wrap64 (epoch * scale)) scale := by
      intro heq
      have := wrap64_mul_exact_of_div epoch scale hpos hle heq.symm
      have hr := wrap64_range (epoch * scale)
      rw [this] at hr
      exact hover hr
    simp [get_datetime_scaled_epoch, hok, hnz, hne]
  · intro v hv
    simp only [get_datetime_scaled_epoch, hok] at hv
    by_cases hcond : epoch ≠ 0 ∧ epoch ≠ cppDiv (wrap64 (epoch * scale)) scale
    · simp [hcond] at hv
    · simp [hcond] at hv
      push_neg at hcond
      by_cases hz : epoch = 0
      · subst hz
        rw [← hv]
        simp [wrap64_eq_of_range 0 (by norm_num) (by positivity)]
      · have hq := hcond hz
        have := wrap64_mul_exact_of_div epoch scale hpos hle hq.symm
        rw [← hv, this]
  · simp [get_datetime_scaled_epoch, hok]

/-- Witness for claim C9 at a concrete input: epoch 3 at nanosecond precision
9. -/
theorem claim_C9_witness :
    ∃ scale, get_timestamp_precision_scale 9 = .ok scale ∧ 0 < scale ∧
      ((-(2 ^ 63) ≤ 3 * scale ∧ 3 * scale < 2 ^ 63 →
         get_datetime_scaled_epoch .ScaleUp 3 9 = .ok (3 * scale)) ∧
       (¬(-(2 ^ 63) ≤ 3 * scale ∧ 3 * scale < 2 ^ 63) →
         (3 : Int) ≠ 0 ∧
           get_datetime_scaled_epoch .ScaleUp 3 9 =
             .error
               "Value Overflow/underflow detected while scaling DateTime precision.") ∧
       (∀ v, get_datetime_scaled_epoch .ScaleUp 3 9 = .ok v →
         v = 3 * scale) ∧
       get_datetime_scaled_epoch .ScaleDown 3 9 = .ok (cppDiv 3 scale)) :=
  claim_C9_get_datetime_scaled_epoch 3 9 (by norm_num) (by norm_num)
    (by norm_num)

/-- Modelled from the spec: `Type::canonicalize()`, the canonical
representation of section 4.1 of the specification, i.e. `logicalType`. -/
def IRType.canonicalize (t : IRType) : IRType := logicalType t

/-- Summary of one output target (`TargetInfo`, TargetInfo.h): aggregate flag,
aggregate kind, result type, argument type, null-skipping flag and DISTINCT
flag. -/
structure TargetInfo where
  is_agg : Bool
  agg_kind : SQLAgg
  type : IRType
  agg_arg_type : Option IRType
  skip_null_val : Bool
  is_distinct : Bool
  deriving DecidableEq, Repr

/-- Embedding of `get_target_info` (TargetInfo.h).  The aborting CHECKs on a
COUNT without argument are modelled by `none`. -/
def get_target_info (target_expr : Expr) (bigint_count : Bool) :
    Option TargetInfo :=
  let nullable := (target_expr.type).nullable
  match target_expr with
  | .aggExpr _ aggType argO isDistinct0 =>
      match argO with
      | none =>
          if aggType = .kCOUNT ∧ isDistinct0 = false then
            some ⟨true, .kCOUNT,
              .integer (if bigint_count then 8 else 4) nullable,
              none, false, false⟩
          else none
      | some aggArg =>
          let agg_arg_type := aggArg.type
          let is_distinct := if aggType = .kCOUNT then isDistinct0 else false
          if aggType = .kAVG then
            some ⟨true, .kAVG,
              if agg_arg_type.isInteger then
                .integer 8 agg_arg_type.nullable
              else agg_arg_type,
              some agg_arg_type, agg_arg_type.nullable, is_distinct⟩
          else
            some ⟨true, aggType,
              if aggType = .kCOUNT then
                .integer (if is_distinct || bigint_count then 8 else 4)
                  nullable
              else target_expr.type,
              some agg_arg_type,
              if aggType = .kCOUNT &&
                  (agg_arg_type.isString || agg_arg_type.isArray) then false
              else agg_arg_type.nullable,
              is_distinct⟩
  | _ =>
      some ⟨false, .kMIN, (target_expr.type).canonicalize, none, false, false⟩

/-- Embedding of `takes_float_argument` (TargetInfo.h). -/
def takes_float_argument (target_info : TargetInfo) : Bool :=
  target_info.is_agg &&
    (target_info.agg_kind == .kAVG || target_info.agg_kind == .kSUM ||
     target_info.agg_kind == .kMIN || target_info.agg_kind == .kMAX ||
     target_info.agg_kind == .kSINGLE_VALUE) &&
    ((target_info.agg_arg_type.map IRType.isFp32).getD false)

/-- Embedding of `agg_arg` (OutputBufferInitialization.cpp): the argument of an
aggregate expression, none otherwise. -/
def agg_arg : Expr → Option Expr
  | .aggExpr _ _ arg _ => arg
  | _ => none

/-- Value written into one int64 accumulator slot.  Integer bit patterns are
carried exactly; floating-point bit patterns are represented symbolically by
the constant they reinterpret (zero, maximum, negated maximum, or the null
sentinel of a floating type of width `typeW`) together with the byte width
`w` of the written pattern. -/
inductive InitVal where
  | intv (v : Int)
  | fpZero (w : Nat)
  | fpMax (w : Nat)
  | fpNegMax (w : Nat)
  | fpNull (typeW : Nat) (w : Nat)
  deriving DecidableEq, Repr

/-- Modelled from the spec: `inline_int_null_value` — the null sentinel of a
non-floating type is the minimum value of its byte width. -/
def intNullValue (t : IRType) : Int := -(2 ^ (8 * t.size.toNat - 1))

/-- Maximum representable signed integer at a byte width. -/
def intMaxOf (w : Nat) : Int := 2 ^ (8 * w - 1) - 1

/-- Minimum representable signed integer at a byte width. -/
def intMinOf (w : Nat) : Int := -(2 ^ (8 * w - 1))

/-- Modelled from the spec: `get_bit_width` — eight bits per declared byte. -/
def get_bit_width (t : IRType) : Nat := 8 * t.size.toNat

/-- Modelled from the spec: `compact_byte_width` (BufferCompaction.h) — the
width, but no smaller than the compaction lower bound. -/
def compact_byte_width (qw : Nat) (lowBound : Nat) : Nat := max qw lowBound

/-- Modelled from the spec: `Type::canonicalSize` — the declared size of the
canonical (logical) form of the type. -/
def canonicalSizeOf (t : IRType) : Int := (logicalType t).size

/-- Byte width chosen by `get_agg_initial_val` for the accumulator slot. -/
def chosen_byte_width (type : IRType) (enable_compaction : Bool)
    (min_byte_width_to_compact : Nat) : Nat :=
  if enable_compaction then
    compact_byte_width (get_bit_width type >>> 3) min_byte_width_to_compact
  else 8

/-- MIN branch of `get_agg_initial_val`: maximum representable value at the
chosen width (null sentinel when nullable); widths 1 and 2 assert a
non-floating type. -/
def minAggSeed (type : IRType) (byte_width : Nat) : Option InitVal :=
  if byte_width = 1 then
    if type.isFloatingPoint then none
    else some (.intv (if !type.nullable then intMaxOf 1 else intNullValue type))
  else if byte_width = 2 then
    if type.isFloatingPoint then none
    else some (.intv (if !type.nullable then intMaxOf 2 else intNullValue type))
  else if byte_width = 4 then
    some (if type.isFloatingPoint then
            (if !type.nullable then .fpMax 4
             else .fpNull type.size.toNat 4)
          else .intv (if !type.nullable then intMaxOf 4
                      else intNullValue type))
  else if byte_width = 8 then
    some (if type.isFloatingPoint then
            (if !type.nullable then .fpMax 8
             else .fpNull type.size.toNat 8)
          else .intv (if !type.nullable then intMaxOf 8
                      else intNullValue type))
  else none

/-- MAX / SINGLE_VALUE / SAMPLE branch of `get_agg_initial_val`: minimum
representable value (negated maximum for floating point) at the chosen width
(null sentinel when nullable). -/
def maxAggSeed (type : IRType) (byte_width : Nat) : Option InitVal :=
  if byte_width = 1 then
    if type.isFloatingPoint then none
    else some (.intv (if !type.nullable then intMinOf 1 else intNullValue type))
  else if byte_width = 2 then
    if type.isFloatingPoint then none
    else some (.intv (if !type.nullable then intMinOf 2 else intNullValue type))
  else if byte_width = 4 then
    some (if type.isFloatingPoint then
            (if !type.nullable then .fpNegMax 4
             else .fpNull type.size.toNat 4)
          else .intv (if !type.nullable then intMinOf 4
                      else intNullValue type))
  else if byte_width = 8 then
    some (if type.isFloatingPoint then
            (if !type.nullable then .fpNegMax 8
             else .fpNull type.size.toNat 8)
          else .intv (if !type.nullable then intMinOf 8
                      else intNullValue type))
  else none

/-- SUM branch of `get_agg_initial_val`: the null sentinel when nullable, zero
otherwise (float-typed zero bits for floating point); non-nullable widths
other than 4 and 8 assert. -/
def sumAggSeed (type : IRType) (byte_width : Nat) : Option InitVal :=
  if type.nullable then
    if type.isFloatingPoint then
      if byte_width = 4 then some (.fpNull type.size.toNat 4)
      else if byte_width = 8 then some (.fpNull type.size.toNat 8)
      else none
    else some (.intv (intNullValue type))
  else
    if byte_width = 4 then
      some (if type.isFloatingPoint then .fpZero 4 else .intv 0)
    else if byte_width = 8 then
      some (if type.isFloatingPoint then .fpZero 8 else .intv 0)
    else none

/-- Embedding of `get_agg_initial_val` (OutputBufferInitialization.cpp).  The
leading CHECKs (string or dictionary type only under SINGLE_VALUE / SAMPLE,
and the chosen width at least the canonical size) and the aborting default and
width branches are modelled by `none`. -/
def get_agg_initial_val (agg : SQLAgg) (type : IRType)
    (enable_compaction : Bool) (min_byte_width_to_compact : Nat) :
    Option InitVal :=
  if !(!(type.isString || type.isExtDictionary) ||
       agg == .kSINGLE_VALUE || agg == .kSAMPLE) then none
  else
    let byte_width := chosen_byte_width type enable_compaction
      min_byte_width_to_compact
    if !(canonicalSizeOf type < 0 ||
         byte_width ≥ (canonicalSizeOf type).toNat) then none
    else
      match agg with
      | .kSUM => sumAggSeed type byte_width
      | .kAVG => some (.intv 0)
      | .kCOUNT => some (.intv 0)
      | .kAPPROX_COUNT_DISTINCT => some (.intv 0)
      | .kAPPROX_QUANTILE => some (.intv 0)
      | .kMIN => minAggSeed type byte_width
      | .kSINGLE_VALUE => maxAggSeed type byte_width
      | .kSAMPLE => maxAggSeed type byte_width
      | .kMAX => maxAggSeed type byte_width

/-- Query-shape kinds relevant to initialization
(`QueryDescriptionType`). -/
inductive QueryDescriptionType where
  | GroupByPerfectHash
  | GroupByBaselineHash
  | Projection
  | NonGroupedAggregate
  | Estimator
  deriving DecidableEq, Repr

/-- Modelled from the spec: the query memory descriptor, the read-only oracle
supplying per-target padded slot widths, the slot count, the compaction byte
width and whether the query is grouped. -/
structure QueryMemoryDescriptor where
  slotCount : Nat
  groupBy : Bool
  paddedSlotWidths : List Int
  compactByteWidth : Nat
  logicalSizedColumnsAllowed : Bool
  queryDescriptionType : QueryDescriptionType
  deriving Repr

/-- Padded physical width of one slot (`getPaddedSlotWidthBytes`). -/
def QueryMemoryDescriptor.getPaddedSlotWidthBytes
    (qmd : QueryMemoryDescriptor) (i : Nat) : Int :=
  qmd.paddedSlotWidths.getD i 0

/-- Modelled from the spec: `get_compact_type` — the type whose accumulator is
initialized: the argument type for AVG (whose first slot accumulates the
running sum over the argument domain), the target type otherwise. -/
def get_compact_type (target : TargetInfo) : IRType :=
  if !target.is_agg then target.type
  else if target.agg_kind == .kAVG then target.agg_arg_type.getD target.type
  else target.type

/-- Loop of the first `init_agg_val_vec` overload
(OutputBufferInitialization.cpp, lines 24-71), carrying the running slot
index.  The aborting CHECKs are modelled by `none`. -/
def init_agg_val_vec_go (qmd : QueryMemoryDescriptor) :
    List TargetInfo → Nat → Option (List InitVal)
  | [], _ => some []
  | agg_info :: rest, agg_col_idx =>
      if agg_col_idx ≥ qmd.slotCount then none
      else
        let agg_type := agg_info.type
        if !agg_info.is_agg || agg_info.agg_kind == .kSAMPLE then
          if agg_info.agg_kind == .kSAMPLE && agg_type.isExtDictionary then
            match get_agg_initial_val agg_info.agg_kind agg_type qmd.groupBy
                qmd.compactByteWidth with
            | none => none
            | some v =>
                (init_agg_val_vec_go qmd rest (agg_col_idx + 1)).map
                  (fun tl => v :: tl)
          else
            let part1 : List InitVal :=
              if qmd.getPaddedSlotWidthBytes agg_col_idx > 0 then
                [.intv 0] else []
            let part2 : List InitVal :=
              if agg_type.isArray || agg_type.isString then [.intv 0] else []
            (init_agg_val_vec_go qmd rest (agg_col_idx + 1)).map
              (fun tl => part1 ++ part2 ++ tl)
        else
          if !(qmd.getPaddedSlotWidthBytes agg_col_idx > 0) then none
          else
            let float_argument_input := takes_float_argument agg_info
            let chosen_bytes : Nat :=
              if qmd.logicalSizedColumnsAllowed then
                (qmd.getPaddedSlotWidthBytes agg_col_idx).toNat
              else qmd.compactByteWidth
            let init_type0 := get_compact_type agg_info
            let init_type :=
              if !qmd.groupBy then init_type0.withNullable true else init_type0
            match get_agg_initial_val agg_info.agg_kind init_type
                (qmd.groupBy || float_argument_input)
                (if float_argument_input then 4 else chosen_bytes) with
            | none => none
            | some v =>
                if agg_info.agg_kind == .kAVG then
                  (init_agg_val_vec_go qmd rest (agg_col_idx + 2)).map
                    (fun tl => v :: .intv 0 :: tl)
                else
                  (init_agg_val_vec_go qmd rest (agg_col_idx + 1)).map
                    (fun tl => v :: tl)

/-- Embedding of the first `init_agg_val_vec` overload: one or two initializer
slots per target. -/
def init_agg_val_vec (targets : List TargetInfo)
    (qmd : QueryMemoryDescriptor) : Option (List InitVal) :=
  init_agg_val_vec_go qmd targets 0

/-- Modelled from the spec: `set_notnull` — forces the nullability of a target
for initialization purposes, adjusting the null-skipping flag accordingly. -/
def set_notnull (target : TargetInfo) (not_null : Bool) : TargetInfo :=
  { target with skip_null_val := !not_null,
                type := target.type.withNullable (!not_null) }

/-- Embedding of `constrained_not_null` (OutputBufferInitialization.cpp):
some qualifier is an IS NOT NULL unary predicate — or a NOT over an IS NULL
or IS NOT NULL predicate — whose operand is structurally equal to the given
expression. -/
def constrained_not_null (expr : Expr) (quals : List Expr) : Bool :=
  quals.any fun qual =>
    match qual with
    | .uoper _ op operand =>
        if op == .kNOT then
          match operand with
          | .uoper _ op2 operand2 =>
              (op2 == .kISNOTNULL || op2 == .kISNULL) && exprBEq operand2 expr
          | _ => false
        else op == .kISNOTNULL && exprBEq operand expr
    | _ => false

/-- Per-target step of the second `init_agg_val_vec` overload
(OutputBufferInitialization.cpp, lines 257-285): compute the TargetInfo of the
target expression, then force its nullability — always nullable for
MIN / MAX / SUM / AVG / APPROX_QUANTILE aggregates of a non-grouped
aggregation, non-nullable when the qualifiers constrain the aggregate argument
to be non-null. -/
def target_info_for_init (target_expr : Expr) (quals : List Expr)
    (qmd : QueryMemoryDescriptor) (bigint_count : Bool) :
    Option TargetInfo :=
  match get_target_info target_expr bigint_count with
  | none => none
  | some target =>
      match agg_arg target_expr with
      | none => some target
      | some arg_expr =>
          if qmd.queryDescriptionType == .NonGroupedAggregate &&
              target.is_agg &&
              (target.agg_kind == .kMIN || target.agg_kind == .kMAX ||
               target.agg_kind == .kSUM || target.agg_kind == .kAVG ||
               target.agg_kind == .kAPPROX_QUANTILE) then
            some (set_notnull target false)
          else if constrained_not_null arg_expr quals then
            some (set_notnull target true)
          else some target

/-- Target-info collection loop of the second `init_agg_val_vec` overload: the
loop stops once either the targets or the slots run out. -/
def compute_target_infos_go (quals : List Expr)
    (qmd : QueryMemoryDescriptor) (bigint_count : Bool) :
    List Expr → Nat → Option (List TargetInfo)
  | [], _ => some []
  | te :: rest, idx =>
      if idx < qmd.slotCount then
        match target_info_for_init te quals qmd bigint_count with
        | none => none
        | some ti =>
            match compute_target_infos_go quals qmd bigint_count rest
                (idx + 1) with
            | none => none
            | some tis => some (ti :: tis)
      else some []

/-- Embedding of the second `init_agg_val_vec` overload: force per-target
nullability, then compute the initializer vector. -/
def init_agg_val_vec_exprs (targets : List Expr) (quals : List Expr)
    (qmd : QueryMemoryDescriptor) (bigint_count : Bool) :
    Option (List InitVal) :=
  match compute_target_infos_go quals qmd bigint_count targets 0 with
  | none => none
  | some tis => init_agg_val_vec tis qmd

/-- Spec-side null sentinel of a type, written at a byte width. -/
def nullSentinelSpec (type : IRType) (byte_width : Nat) : InitVal :=
  if type.isFloatingPoint then .fpNull type.size.toNat byte_width
  else .intv (intNullValue type)

/-- Spec-side maximum representable value at the chosen byte width. -/
def maxRepresentableSpec (type : IRType) (byte_width : Nat) : InitVal :=
  if type.isFloatingPoint then .fpMax byte_width
  else .intv (intMaxOf byte_width)

/-- Spec-side minimum representable value at the chosen byte width, the
negated maximum for floating point. -/
def minRepresentableSpec (type : IRType) (byte_width : Nat) : InitVal :=
  if type.isFloatingPoint then .fpNegMax byte_width
  else .intv (intMinOf byte_width)

/-- Spec-side per-kind identity value, written from the words of the claim:
SUM is zero, or the null sentinel when nullable; COUNT, AVG and
APPROX_COUNT_DISTINCT are zero; APPROX_QUANTILE is not seeded (zero value);
MIN is the maximum representable value at the chosen width (null sentinel when
nullable); MAX, SINGLE_VALUE and SAMPLE are the minimum representable value,
the negated maximum for floating point (null sentinel when nullable). -/
def aggInitSpec (agg : SQLAgg) (type : IRType) (byte_width : Nat) : InitVal :=
  match agg with
  | .kSUM =>
      if type.nullable then nullSentinelSpec type byte_width
      else if type.isFloatingPoint then .fpZero byte_width else .intv 0
  | .kCOUNT => .intv 0
  | .kAVG => .intv 0
  | .kAPPROX_COUNT_DISTINCT => .intv 0
  | .kAPPROX_QUANTILE => .intv 0
  | .kMIN =>
      if type.nullable then nullSentinelSpec type byte_width
      else maxRepresentableSpec type byte_width
  | .kMAX | .kSINGLE_VALUE | .kSAMPLE =>
      if type.nullable then nullSentinelSpec type byte_width
      else minRepresentableSpec type byte_width

/-- SUM seed agrees with the spec value whenever the code does not abort. -/
theorem sumAggSeed_spec (type : IRType) (bw : Nat) (v : InitVal)
    (h : sumAggSeed type bw = some v) :
    v = aggInitSpec .kSUM type bw := by
  unfold sumAggSeed at h
  unfold aggInitSpec nullSentinelSpec
  split_ifs at h <;> simp_all

/-- MIN seed agrees with the spec value whenever the code does not abort. -/
theorem minAggSeed_spec (type : IRType) (bw : Nat) (v : InitVal)
    (h : minAggSeed type bw = some v) :
    v = aggInitSpec .kMIN type bw := by
  unfold minAggSeed at h
  unfold aggInitSpec nullSentinelSpec maxRepresentableSpec
  split_ifs at h <;> simp_all

/-- MAX / SINGLE_VALUE / SAMPLE seed agrees with the spec value whenever the
code does not abort. -/
theorem maxAggSeed_spec (type : IRType) (bw : Nat) (v : InitVal)
    (h : maxAggSeed type bw = some v) :
    v = aggInitSpec .kMAX type bw := by
  unfold maxAggSeed at h
  unfold aggInitSpec nullSentinelSpec minRepresentableSpec
  split_ifs at h <;> simp_all

/-- Claim C1: whenever `get_agg_initial_val` returns a value, that value is
the per-kind identity of the specification at the chosen byte width; in
particular MIN over a non-nullable 4-byte integer seeds INT32_MAX and MAX over
the same type seeds INT32_MIN; and an AVG target appends a second slot
initialized to zero. -/
theorem claim_C1_agg_initial_val :
    (∀ agg type ec mbw v,
      get_agg_initial_val agg type ec mbw = some v →
      v = aggInitSpec agg type (chosen_byte_width type ec mbw)) ∧
    get_agg_initial_val .kMIN (.integer 4 false) true 4 =
      some (.intv 2147483647) ∧
    get_agg_initial_val .kMAX (.integer 4 false) true 4 =
      some (.intv (-2147483648)) ∧
    (∀ qmd ti l, ti.is_agg = true → ti.agg_kind = .kAVG →
      init_agg_val_vec [ti] qmd = some l →
      ∃ w, l = [w, InitVal.intv 0]) := by
  refine ⟨?_, by decide, by decide, ?_⟩
  · intro agg type ec mbw v h
    simp only [get_agg_initial_val] at h
    split_ifs at h
    cases agg with
    | kSUM => exact sumAggSeed_spec _ _ _ h
    | kMIN => exact minAggSeed_spec _ _ _ h
    | kMAX => exact maxAggSeed_spec _ _ _ h
    | kSINGLE_VALUE => exact maxAggSeed_spec _ _ _ h
    | kSAMPLE => exact maxAggSeed_spec _ _ _ h
    | kAVG => simp_all [aggInitSpec]
    | kCOUNT => simp_all [aggInitSpec]
    | kAPPROX_COUNT_DISTINCT => simp_all [aggInitSpec]
    | kAPPROX_QUANTILE => simp_all [aggInitSpec]
  · intro qmd ti l hagg hkind h
    simp only [init_agg_val_vec, init_agg_val_vec_go] at h
    by_cases hs : 0 ≥ qmd.slotCount
    · simp [hs] at h
    · rw [if_neg hs] at h
      rw [hagg, hkind] at h
      norm_num at h
      by_cases hp : qmd.getPaddedSlotWidthBytes 0 ≤ 0
      · simp [hp] at h
      · rw [if_neg hp] at h
        cases hgv : get_agg_initial_val SQLAgg.kAVG
            (if qmd.groupBy = false then
              (get_compact_type ti).withNullable true
             else get_compact_type ti)
            (qmd.groupBy || takes_float_argument ti)
            (if takes_float_argument ti = true then 4
             else if qmd.logicalSizedColumnsAllowed = true then
               (qmd.getPaddedSlotWidthBytes 0).toNat
             else qmd.compactByteWidth) with
        | none => rw [hgv] at h; simp at h
        | some w =>
            rw [hgv] at h
            exact ⟨w, by simp_all⟩


/-- Witness for claim C1 at a concrete input: SUM over a nullable 8-byte
integer is seeded with the null sentinel INT64_MIN, matching the spec value. -/
theorem claim_C1_witness :
    get_agg_initial_val .kSUM (.integer 8 true) true 8 =
      some (.intv (-9223372036854775808)) ∧
    InitVal.intv (-9223372036854775808) =
      aggInitSpec .kSUM (.integer 8 true)
        (chosen_byte_width (.integer 8 true) true 8) := by
  have h1 : get_agg_initial_val .kSUM (.integer 8 true) true 8 =
      some (.intv (-9223372036854775808)) := by decide
  exact ⟨h1, claim_C1_agg_initial_val.1 .kSUM (.integer 8 true) true 8 _ h1⟩

/-- Whether a type carries a real nullability flag: every kind does except the
null type (also when it sits under a dictionary encoding). -/
def hasNullFlag : IRType → Bool
  | .nullTy => false
  | .extDict e _ _ => hasNullFlag e
  | _ => true

/-- Replacing the nullability flag of a flag-carrying type yields a type with
exactly that flag. -/
theorem withNullable_nullable (t : IRType) (b : Bool)
    (h : hasNullFlag t = true) :
    (t.withNullable b).nullable = b := by
  induction t <;> simp_all [IRType.withNullable, IRType.nullable, hasNullFlag]

/-- Concrete nullable 4-byte integer column. -/
def nullableIntColEx : Expr := .columnVar (.integer 4 true) 1 1

/-- Concrete SUM aggregate over the nullable column. -/
def sumColEx : Expr :=
  .aggExpr (.integer 4 true) .kSUM (some nullableIntColEx) false

/-- Concrete IS NOT NULL qualifier over the nullable column. -/
def isNotNullQualEx : Expr :=
  .uoper (.boolean false) .kISNOTNULL nullableIntColEx

/-- Concrete grouped query memory descriptor with one 8-byte slot. -/
def qmdGroupedEx : QueryMemoryDescriptor :=
  ⟨1, true, [8], 8, false, .GroupByPerfectHash⟩

/-- Concrete non-grouped query memory descriptor with one 8-byte slot. -/
def qmdNonGroupedEx : QueryMemoryDescriptor :=
  ⟨1, false, [8], 8, false, .NonGroupedAggregate⟩

/-- Claim C8: the second `init_agg_val_vec` overload forces the nullability of
each target with an aggregate argument before computing initializers — always
nullable for a MIN, MAX, SUM, AVG or APPROX_QUANTILE aggregate of a
non-grouped aggregation; otherwise non-nullable when some qualifier is an
IS NOT NULL predicate (or negated IS NULL predicate) whose operand is
structurally equal to the aggregate argument; in particular SUM over a
nullable integer column in a grouped query with the qualifier
`col IS NOT NULL` yields a non-nullable target, and without that qualifier a
nullable one. -/
theorem claim_C8_forced_nullability :
    (∀ te quals qmd b target arg_e,
      get_target_info te b = some target → agg_arg te = some arg_e →
      qmd.queryDescriptionType = .NonGroupedAggregate →
      target.is_agg = true → hasNullFlag target.type = true →
      (target.agg_kind = .kMIN ∨ target.agg_kind = .kMAX ∨
       target.agg_kind = .kSUM ∨ target.agg_kind = .kAVG ∨
       target.agg_kind = .kAPPROX_QUANTILE) →
      target_info_for_init te quals qmd b =
        some (set_notnull target false) ∧
      ((set_notnull target false).type).nullable = true) ∧
    (∀ te quals qmd b target arg_e,
      get_target_info te b = some target → agg_arg te = some arg_e →
      (qmd.queryDescriptionType == QueryDescriptionType.NonGroupedAggregate &&
       target.is_agg &&
       (target.agg_kind == .kMIN || target.agg_kind == .kMAX ||
        target.agg_kind == .kSUM || target.agg_kind == .kAVG ||
        target.agg_kind == .kAPPROX_QUANTILE)) = false →
      hasNullFlag target.type = true →
      constrained_not_null arg_e quals = true →
      target_info_for_init te quals qmd b =
        some (set_notnull target true) ∧
      ((set_notnull target true).type).nullable = false) ∧
    (target_info_for_init sumColEx [isNotNullQualEx] qmdGroupedEx false).map
        (fun ti => (ti.type).nullable) = some false ∧
    (target_info_for_init sumColEx [] qmdGroupedEx false).map
        (fun ti => (ti.type).nullable) = some true := by
  refine ⟨?_, ?_, by decide, by decide⟩
  · intro te quals qmd b target arg_e hgt harg hq hagg hnn hkind
    have hcond : (qmd.queryDescriptionType ==
        QueryDescriptionType.NonGroupedAggregate &&
        target.is_agg &&
        (target.agg_kind == .kMIN || target.agg_kind == .kMAX ||
         target.agg_kind == .kSUM || target.agg_kind == .kAVG ||
         target.agg_kind == .kAPPROX_QUANTILE)) = true := by
      rcases hkind with hk | hk | hk | hk | hk <;> simp [hq, hagg, hk]
    refine ⟨?_, by simp [set_notnull, withNullable_nullable _ _ hnn]⟩
    simp only [target_info_for_init, hgt, harg, hcond, if_true]
  · intro te quals qmd b target arg_e hgt harg hcond hnn hc
    refine ⟨?_, by simp [set_notnull, withNullable_nullable _ _ hnn]⟩
    simp only [target_info_for_init, hgt, harg, hcond, hc]
    simp

/-- Witness for claim C8 at a concrete input: SUM over the nullable column in
a non-grouped aggregation is forced nullable. -/
theorem claim_C8_witness :
    target_info_for_init sumColEx [] qmdNonGroupedEx false =
      some (set_notnull
        ⟨true, .kSUM, .integer 4 true, some (.integer 4 true), true, false⟩
        false) ∧
    ((set_notnull
        ⟨true, .kSUM, .integer 4 true, some (.integer 4 true), true, false⟩
        false).type).nullable = true :=
  claim_C8_forced_nullability.1 sumColEx [] qmdNonGroupedEx false
    ⟨true, .kSUM, .integer 4 true, some (.integer 4 true), true, false⟩
    nullableIntColEx rfl rfl rfl rfl (by decide)
    (Or.inr (Or.inr (Or.inl rfl)))

/-- Claim C10: an AVG aggregate over an integer-typed argument reports a
64-bit integer result type that preserves the nullability of the argument (the
running sum is upcast so it cannot overflow the argument width), while an AVG
over a non-integer argument keeps the argument type as the result type. -/
theorem claim_C10_avg_target_info :
    (∀ t arg d b, (arg.type).isInteger = true →
      get_target_info (.aggExpr t .kAVG (some arg) d) b =
        some ⟨true, .kAVG, .integer 8 (arg.type).nullable, some arg.type,
          (arg.type).nullable, false⟩) ∧
    (∀ t arg d b, (arg.type).isInteger = false →
      get_target_info (.aggExpr t .kAVG (some arg) d) b =
        some ⟨true, .kAVG, arg.type, some arg.type, (arg.type).nullable,
          false⟩) := by
  constructor <;> intro t arg d b hint <;>
    simp [get_target_info, hint]

/-- Witness for claim C10 at a concrete input: AVG over the nullable 4-byte
integer column upcasts to a nullable 8-byte integer. -/
theorem claim_C10_witness :
    get_target_info (.aggExpr (.integer 4 true) .kAVG
        (some nullableIntColEx) false) false =
      some ⟨true, .kAVG, .integer 8 true, some (.integer 4 true), true,
        false⟩ := by
  have h := claim_C10_avg_target_info.1 (.integer 4 true) nullableIntColEx
    false false rfl
  exact h

end HdkSpec
